import Mathlib

/-!
# Verification of the mdu-api media-extraction service

Shallow embedding of the extraction core of the `mdu-api` repository
(`src/processor/extractvideo.ts`, the YouTube platform module, the TikTok
platform module, and the HTTP handlers in `mdu.ts`), together with proofs
about the claims of its specification.

Modelling conventions:
* JavaScript values that may be a present value, an explicitly `undefined`
  property, or an absent property are modelled by `JSOpt`.
* Network fetches are modelled by `FetchResult` oracles passed as arguments;
  the HTML/JSON payload of a successful fetch is abstracted to the data the
  source code extracts from it (listed per definition).
* JS `Array.prototype.sort` with a consistent comparator `cmp` is stable and
  is modelled by `List.insertionSort r` with `r a b ↔ cmp a b ≤ 0`
  (`orderedInsert` places an element before the first element it must not
  follow, which is exactly the unique stable sort).
* JS strings are Lean `String`s; only the ASCII fragment of the URI
  percent-coding built-ins is modelled faithfully (multi-byte UTF-8
  percent-sequences are modelled as decode failures); every concrete input
  used in the theorems below is ASCII.
-/

/-- A JavaScript optional field: the property may be absent from the object,
present with value `undefined`, or present with a value.  The distinction
between `absent` and `undef` matters because object spread (`...request`)
copies present-but-`undefined` properties. -/
inductive JSOpt (α : Type) where
  | absent : JSOpt α
  | undef : JSOpt α
  | val : α → JSOpt α
deriving DecidableEq, Repr

deriving instance DecidableEq for Except

/-- Truthiness of a JS string-valued optional: only a present, non-empty
string is truthy. -/
def jsTruthyS : JSOpt String → Bool
  | .val s => s ≠ ""
  | _ => false

/-- Truthiness of a JS boolean-valued optional. -/
def jsTruthyB : JSOpt Bool → Bool
  | .val b => b
  | _ => false

/-- The string value of a JS optional (used after a truthiness check; the
falsy cases are unreachable at use sites and map to `""`). -/
def jsValS : JSOpt String → String
  | .val s => s
  | _ => ""

/-- JS `a || b` on two possibly-`undefined` strings, as used for
`format.qualityLabel || format.quality`.  A resulting `undefined` is
modelled as `""` (the only uses of the result in the claims are
order/field-retention properties that do not distinguish the two). -/
def jsOrStr (a b : Option String) : String :=
  match a with
  | some s => if s = "" then (match b with | some t => t | none => "") else s
  | none => match b with | some t => t | none => ""

/-- JS `a || b` keeping the `Option` structure (used for
`og:video || og:video:url`, where the result is then truthiness-tested). -/
def jsOrOpt (a b : Option String) : Option String :=
  match a with
  | some s => if s = "" then b else some s
  | none => b

/-- JS `parseInt` restricted to the usage sites of the repository: the value
of the maximal leading run of decimal digits; a string with no leading digit
(JS `NaN`) is modelled as `0`, which is observationally equal at every use
site (`size` is only consumed through `(x || 0)` comparisons). -/
def jsParseIntNat (s : String) : Nat :=
  let digits := s.toList.takeWhile Char.isDigit
  digits.foldl (fun acc c => acc * 10 + (c.toNat - '0'.toNat)) 0

/-- Is `pat` a (contiguous) prefix of `l`? -/
def listStartsWith : List Char → List Char → Bool
  | [], _ => true
  | _ :: _, [] => false
  | p :: ps, c :: cs => p == c && listStartsWith ps cs

/-- Does `l` contain `pat` as a contiguous substring?  Models JS
`String.prototype.includes`. -/
def listContainsSub (pat : List Char) : List Char → Bool
  | [] => listStartsWith pat []
  | c :: cs => listStartsWith pat (c :: cs) || listContainsSub pat cs

/-- JS `s.includes(pat)`. -/
def jsIncludes (s pat : String) : Bool :=
  listContainsSub pat.toList s.toList

/-- JS `String.prototype.split` with a one-character separator. -/
def splitOnChar (c : Char) : List Char → List (List Char)
  | [] => [[]]
  | x :: xs =>
    match splitOnChar c xs with
    | [] => [[]]
    | h :: t => if x = c then [] :: h :: t else (x :: h) :: t

/-- `splitOnChar` lifted to `String`. -/
def jsSplitC (c : Char) (s : String) : List String :=
  (splitOnChar c s.toList).map (fun l => ⟨l⟩)

/-- Fuel-driven splitter behind `splitOnList`; the fuel only needs to bound
the input length, and each step strictly shortens the input, so the
`0, _ :: _` case is unreachable at the `splitOnList` call site.  (The fuel
makes the recursion structural and hence kernel-reducible.) -/
def splitOnListGo (c0 : Char) (sep' : List Char) : Nat → List Char → List (List Char)
  | _, [] => [[]]
  | 0, l => [l]
  | fuel + 1, c :: rest =>
    if c = c0 ∧ listStartsWith sep' rest then
      [] :: splitOnListGo c0 sep' fuel (rest.drop sep'.length)
    else
      match splitOnListGo c0 sep' fuel rest with
      | [] => [[]]
      | h :: t => (c :: h) :: t

/-- JS `String.prototype.split` with a non-empty multi-character separator
`c0 :: sep'`: scan left to right, splitting at each (non-overlapping)
occurrence of the separator. -/
def splitOnList (c0 : Char) (sep' : List Char) (l : List Char) : List (List Char) :=
  splitOnListGo c0 sep' l.length l

/-- JS `s.split(sep)` for a non-empty string separator (an empty separator
does not occur in the sources). -/
def jsSplitStr (sep : String) (s : String) : List String :=
  match sep.toList with
  | [] => [s]
  | c0 :: sep' => (splitOnList c0 sep' s.toList).map (fun l => ⟨l⟩)

/-- JS `s.toLowerCase()` (ASCII; Lean's `Char.toLower` lowers exactly the
ASCII range, which is all the sources compare). -/
def jsToLower (s : String) : String :=
  ⟨s.toList.map Char.toLower⟩

/-- JS `s.startsWith(pre)`. -/
def jsStartsWith (s pre : String) : Bool :=
  listStartsWith pre.toList s.toList

theorem splitOnChar_ne_nil (c : Char) (l : List Char) : splitOnChar c l ≠ [] := by
  cases l with
  | nil => simp [splitOnChar]
  | cons x xs =>
    simp only [splitOnChar]
    cases splitOnChar c xs with
    | nil => simp
    | cons h t =>
      by_cases hx : x = c <;> simp [hx]

theorem headD_splitOnChar (c : Char) (l : List Char) :
    (splitOnChar c l).headD [] = l.takeWhile (· ≠ c) := by
  induction l with
  | nil => simp [splitOnChar]
  | cons x xs ih =>
    simp only [splitOnChar]
    cases h : splitOnChar c xs with
    | nil => exact absurd h (splitOnChar_ne_nil c xs)
    | cons hd tl =>
      by_cases hx : x = c
      · simp [hx, List.takeWhile]
      · simp only [if_neg hx, List.headD_cons, List.takeWhile]
        have := ih
        rw [h] at this
        simp only [List.headD_cons] at this
        simp [hx, this]

/-! ## Percent-coding built-ins (ASCII fragment) -/

/-- Value of a hexadecimal digit (code points 48-57 are `0`-`9`, 65-70 are
`A`-`F`, 97-102 are `a`-`f`). -/
def hexVal (c : Char) : Option Nat :=
  let n := c.toNat
  if 48 ≤ n ∧ n ≤ 57 then some (n - 48)
  else if 65 ≤ n ∧ n ≤ 70 then some (n - 55)
  else if 97 ≤ n ∧ n ≤ 102 then some (n - 87)
  else none

/-- Upper-case hexadecimal digit of a value `< 16`. -/
def hexDigit (n : Nat) : Char :=
  if n < 10 then Char.ofNat ('0'.toNat + n) else Char.ofNat ('A'.toNat + n - 10)

/-- WHATWG `application/x-www-form-urlencoded` percent-decoding, as applied by
`URLSearchParams` to each key and value: `+` becomes a space, a valid
`%hh` escape becomes the escaped byte, an invalid escape is kept literally.
Bytes `≥ 0x80` are mapped directly to the code point of that value (the
multi-byte UTF-8 interpretation is not modelled; no theorem below exercises
it). -/
def formDecode : List Char → List Char
  | [] => []
  | '+' :: rest => ' ' :: formDecode rest
  | '%' :: h1 :: h2 :: rest =>
    match hexVal h1, hexVal h2 with
    | some v1, some v2 => Char.ofNat (v1 * 16 + v2) :: formDecode rest
    | _, _ => '%' :: formDecode (h1 :: h2 :: rest)
  | c :: rest => c :: formDecode rest

/-- JS `decodeURIComponent` (ASCII fragment): `%hh` escapes are decoded, a
malformed escape throws (`none`).  An escape denoting a byte `≥ 0x80` (the
start of a multi-byte UTF-8 sequence) is modelled as a throw as well; no
theorem below exercises that case.  `+` is NOT special here. -/
def decodeURIComp : List Char → Option (List Char)
  | [] => some []
  | '%' :: h1 :: h2 :: rest =>
    match hexVal h1, hexVal h2 with
    | some v1, some v2 =>
      if v1 * 16 + v2 < 0x80 then
        (decodeURIComp rest).map (Char.ofNat (v1 * 16 + v2) :: ·)
      else none
    | _, _ => none
  | '%' :: _ :: [] => none
  | '%' :: [] => none
  | c :: rest => (decodeURIComp rest).map (c :: ·)

/-- UTF-8 bytes of a code point (standard 1–4 byte encoding). -/
def utf8Bytes (n : Nat) : List Nat :=
  if n < 0x80 then [n]
  else if n < 0x800 then [0xC0 + n / 0x40, 0x80 + n % 0x40]
  else if n < 0x10000 then
    [0xE0 + n / 0x1000, 0x80 + n / 0x40 % 0x40, 0x80 + n % 0x40]
  else
    [0xF0 + n / 0x40000, 0x80 + n / 0x1000 % 0x40, 0x80 + n / 0x40 % 0x40,
      0x80 + n % 0x40]

/-- Is a byte/character kept unescaped by JS `encodeURIComponent`?
(`A–Z a–z 0–9 - _ . ! ~ * ' ( )`). -/
def uriUnreserved (n : Nat) : Bool :=
  ('A'.toNat ≤ n ∧ n ≤ 'Z'.toNat) ∨ ('a'.toNat ≤ n ∧ n ≤ 'z'.toNat) ∨
  ('0'.toNat ≤ n ∧ n ≤ '9'.toNat) ∨
  n ∈ ['-'.toNat, '_'.toNat, '.'.toNat, '!'.toNat, '~'.toNat, '*'.toNat,
    '\x27'.toNat, '('.toNat, ')'.toNat]

/-- JS `encodeURIComponent`: unreserved characters pass through, every other
character is replaced by the `%HH` escapes of its UTF-8 bytes. -/
def encodeURIComp (l : List Char) : List Char :=
  l.flatMap fun c =>
    if uriUnreserved c.toNat then [c]
    else (utf8Bytes c.toNat).flatMap fun b => ['%', hexDigit (b / 16), hexDigit (b % 16)]

/-- `encodeURIComp` on `String`. -/
def encodeURICompStr (s : String) : String := ⟨encodeURIComp s.toList⟩

/-! ## `URLSearchParams` -/

/-- Split one `key=value` segment at its FIRST `=` (a later `=` belongs to
the value); a segment without `=` is a key with empty value. -/
def splitPair (seg : List Char) : List Char × List Char :=
  match seg with
  | [] => ([], [])
  | '=' :: rest => ([], rest)
  | c :: rest =>
    let (k, v) := splitPair rest
    (c :: k, v)

/-- The WHATWG `URLSearchParams` parse of a query string: split on `&`, skip
empty segments, split each segment at the first `=`, form-decode keys and
values.  (The constructor's strip of a leading `?` is omitted: no call site
in the sources passes one.) -/
def parseSearchParams (s : String) : List (String × String) :=
  ((splitOnChar '&' s.toList).filter (· ≠ [])).map fun seg =>
    let (k, v) := splitPair seg
    (⟨formDecode k⟩, ⟨formDecode v⟩)

/-- `URLSearchParams.get`: the value of the first pair with the given key
(`null` modelled as `none`). -/
def searchParamsGet (pairs : List (String × String)) (key : String) : Option String :=
  (pairs.find? (fun p => p.fst = key)).map Prod.snd

/-! ## Source model: `decodeCipher` (youtube module) -/

/-- Model of `decodeCipher(signatureCipher)` from the YouTube platform
module: parse the cipher as a query string, take `url`, `sp`, `s`
(defaulting to `""`), return `""` for a falsy url, otherwise
`decodeURIComponent` the url (a throw is caught and yields `""`) and, if
both `s` and `sp` are truthy, append `&sp=encodeURIComponent(s)`. -/
def decodeCipher (signatureCipher : String) : String :=
  let params := parseSearchParams signatureCipher
  let url := (searchParamsGet params "url").getD ""
  let sp := (searchParamsGet params "sp").getD ""
  let s := (searchParamsGet params "s").getD ""
  if url = "" then ""
  else
    match decodeURIComp url.toList with
    | none => ""
    | some decodedUrl =>
      if s ≠ "" ∧ sp ≠ "" then
        ⟨decodedUrl⟩ ++ "&" ++ sp ++ "=" ++ encodeURICompStr s
      else ⟨decodedUrl⟩

/-! ## Data model -/

/-- `VideoFormat` from `extractvideo.ts` / the platform modules.  The TS
union type `'audio' | 'video'` of the `type` field is modelled as `String`
so that the invariant "produced records carry exactly `audio` or `video`"
is a provable property rather than a typing artifact. -/
structure VideoFormat where
  quality : String
  format : String
  mimeType : String
  type : String
  size : Nat
  url : String
deriving DecidableEq, Repr

/-- `VideoMetadata` from `extractvideo.ts`. -/
structure VideoMetadata where
  title : String
  description : Option String
  duration : Nat
  thumbnail : Option String
  formats : List VideoFormat
  downloadUrl : Option String
deriving DecidableEq, Repr

/-- `VideoExtractRequest` from `extractvideo.ts`; every optional property is
a `JSOpt` since callers (notably the `/extract` handler) construct request
objects with explicitly-`undefined` properties. -/
structure VideoExtractRequest where
  url : JSOpt String
  format : JSOpt String
  quality : JSOpt String
  download : JSOpt Bool
  info : JSOpt Bool
  type : JSOpt String
deriving DecidableEq, Repr

/-- Outcome of one `fetch` call: a 2xx response carrying payload `α` (the
data the source extracts from the body), a non-2xx response with its status,
or a transport failure (a rejected promise) with its error message. -/
inductive FetchResult (α : Type) where
  | ok : α → FetchResult α
  | httpErr : Nat → FetchResult α
  | netErr : String → FetchResult α
deriving DecidableEq, Repr

/-! ## Source model: `getMimeType` and format construction (youtube module) -/

/-- Model of `getMimeType(mimeTypeStr)`: split off the `;`-parameters, split
the media type at `/`, classify as `audio` exactly when the part before the
first `/` is literally `"audio"`, and rejoin the parts for the returned
`mimeType`.  An `undefined` argument takes the `['','']` fallback of
`mimeTypeStr?.split(';')[0].split('/') || ['','']`. -/
def getMimeType (mimeTypeStr : Option String) : String × String :=
  let parts : List String :=
    match mimeTypeStr with
    | some s => jsSplitC '/' ((jsSplitC ';' s).headD "")
    | none => ["", ""]
  let type := if parts.headD "" = "audio" then "audio" else "video"
  (String.intercalate "/" parts, type)

/-- One platform-native YouTube format descriptor, i.e. the fields of an
element of `streamingData.adaptiveFormats` / `streamingData.formats` that
the source reads.  Every field is schema-optional. -/
structure RawYTFormat where
  url : Option String
  signatureCipher : Option String
  mimeType : Option String
  qualityLabel : Option String
  quality : Option String
  contentLength : Option String
deriving DecidableEq, Repr

/-- `playerResponse.streamingData`, with its two optional format arrays. -/
structure StreamingData where
  adaptiveFormats : Option (List RawYTFormat)
  formats : Option (List RawYTFormat)
deriving DecidableEq, Repr

/-- The part of `ytInitialPlayerResponse` the source reads. -/
structure PlayerResponse where
  streamingData : Option StreamingData
deriving DecidableEq, Repr

/-- The `finalUrl` computation of the per-descriptor loop body in
`extractFormatsFromPlayerResponse`: a truthy direct `url` wins, otherwise a
truthy `signatureCipher` is decoded, otherwise the url stays `''`. -/
def finalUrlOf (f : RawYTFormat) : String :=
  match f.url with
  | some u => if u ≠ "" then u else
      (match f.signatureCipher with
       | some c => if c ≠ "" then decodeCipher c else ""
       | none => "")
  | none =>
      match f.signatureCipher with
      | some c => if c ≠ "" then decodeCipher c else ""
      | none => ""

/-- The loop body shared verbatim by the `adaptiveFormats.forEach` and
`formats.forEach` loops of `extractFormatsFromPlayerResponse` (the source
duplicates the same statement block; it is factored here once): a record is
pushed exactly when `finalUrl` is truthy. -/
def processYTFormat (f : RawYTFormat) : Option VideoFormat :=
  let finalUrl := finalUrlOf f
  if finalUrl = "" then none
  else
    let mt := getMimeType f.mimeType
    some
      { quality := jsOrStr f.qualityLabel f.quality
        format := jsOrStr ((jsSplitC '/' mt.fst).get? 1) (some "unknown")
        mimeType := mt.fst
        type := mt.snd
        size := match f.contentLength with
          | some cl => if cl ≠ "" then jsParseIntNat cl else 0
          | none => 0
        url := finalUrl }

/-- The descriptor list processed by `extractFormatsFromPlayerResponse`:
`adaptiveFormats || []` followed by `formats || []`; an absent
`streamingData` short-circuits to no descriptors. -/
def ytRawDescriptors (pr : PlayerResponse) : List RawYTFormat :=
  match pr.streamingData with
  | none => []
  | some sd => sd.adaptiveFormats.getD [] ++ sd.formats.getD []

/-- The final comparator of `extractFormatsFromPlayerResponse`
(`return formats.sort(...)`): two video records compare by the digits of
their quality labels (all non-digits stripped), every other pair ties.
`r a b` means the comparator gives `cmp a b ≤ 0` (i.e. `a` need not follow
`b`).  NOTE: this comparator is not transitive across audio/video
boundaries, so the engine-specific JS sort order is not fully determined;
the stable-insertion order is used here, and all theorems below either use
it only through permutation-invariant facts or on all-video inputs, where
the comparator is consistent and the order is exactly the JS one. -/
def ytResponseRel (a b : VideoFormat) : Prop :=
  a.type = "video" ∧ b.type = "video" →
    jsParseIntNat ⟨b.quality.toList.filter Char.isDigit⟩ ≤
      jsParseIntNat ⟨a.quality.toList.filter Char.isDigit⟩

instance : DecidableRel ytResponseRel := fun _ _ =>
  inferInstanceAs (Decidable (_ ∧ _ → _ ≤ _))

/-- Model of `extractFormatsFromPlayerResponse(playerResponse)`: push one
record per descriptor with a truthy `finalUrl` (adaptive formats first,
regular formats second), then sort with the quality comparator. -/
def extractFormatsFromPlayerResponse (pr : PlayerResponse) : List VideoFormat :=
  ((ytRawDescriptors pr).filterMap processYTFormat).insertionSort ytResponseRel

/-! ## Source model: TikTok platform module -/

/-- The fields of the embedded video-data object (`JSON-LD` /
`__NEXT_DATA__` / `SIGI_STATE`, whichever parsed first) that
`extractFormats` reads.  The three-way parse fallback itself involves no
fetch and is abstracted to its result. -/
structure TikTokVideoData where
  videoUrl : Option String
  playAddr : Option String
  downloadAddr : Option String
  playUrl : Option String
deriving DecidableEq, Repr

/-- What the source extracts from a successfully fetched TikTok main page:
the `src` attributes of `video[src]` elements, the `og:video` /
`og:video:url` meta contents, the embedded video-data object, and the
title/description/duration/thumbnail results of the helper extractors
(which involve no further fetch). -/
structure TikTokPage where
  videoSrcs : List String
  ogVideo : Option String
  ogVideoUrl : Option String
  videoData : TikTokVideoData
  title : String
  description : String
  duration : Nat
  thumbnail : String
deriving DecidableEq, Repr

/-- A TikTok-module record constructor: all records of this module share
`format: 'mp4'`, `size: 0`, `mimeType: 'video/mp4'`, `type: 'video'`. -/
def tkFormat (quality url : String) : VideoFormat :=
  { quality := quality, format := "mp4", mimeType := "video/mp4",
    type := "video", size := 0, url := url }

/-- Model of `extractFormats($, videoData)`: direct `video[src]` elements
(kept when the src is truthy and starts with `http`), then the
`og:video || og:video:url` meta tag, then the script-data urls
`[videoUrl, video?.playAddr, video?.downloadAddr, video?.playUrl]`
filtered to truthy `http` urls. -/
def extractFormatsTk (page : TikTokPage) : List VideoFormat :=
  let srcFormats :=
    (page.videoSrcs.filter fun s => s ≠ "" ∧ jsStartsWith s "http").map
      (tkFormat "original")
  let metaFormats :=
    match jsOrOpt page.ogVideo page.ogVideoUrl with
    | some v => if v ≠ "" ∧ jsStartsWith v "http" then [tkFormat "original" v] else []
    | none => []
  let dataUrls :=
    [page.videoData.videoUrl, page.videoData.playAddr,
      page.videoData.downloadAddr, page.videoData.playUrl].filterMap id
  let dataFormats :=
    (dataUrls.filter fun u => u ≠ "" ∧ jsStartsWith u "http").map (tkFormat "original")
  srcFormats ++ metaFormats ++ dataFormats

/-- Model of `getEmbedUrl(url)`: the id is
`url.split('/video/')[1]?.split('?')[0]`; a falsy id yields `null`. -/
def getEmbedUrl (url : String) : Option String :=
  match (jsSplitStr "/video/" url).get? 1 with
  | none => none
  | some tail =>
    let videoId := ((jsSplitC '?' tail).headD "")
    if videoId = "" then none else some ("https://www.tiktok.com/embed/v2/" ++ videoId)

/-- Model of `extractFromEmbed(embedUrl)`: a non-2xx response or a transport
failure yields no formats (swallowed); a 2xx response yields one
`'original (embed)'` record per truthy `video[src]` attribute (this branch
checks only truthiness, not an `http` prefix).  The fetched page is
abstracted to its `video[src]` attribute list. -/
def extractFromEmbed (fetch : FetchResult (List String)) : List VideoFormat :=
  match fetch with
  | .ok srcs => (srcs.filter (· ≠ "")).map (tkFormat "original (embed)")
  | .httpErr _ => []
  | .netErr _ => []

/-- `aweme_list[0].video` of the TikTok API JSON: the two url lists the
source reads. -/
structure ApiAweme where
  playAddrUrls : List String
  downloadAddrUrls : List String
deriving DecidableEq, Repr

/-- The TikTok API response body (`data.aweme_list`). -/
structure ApiResponse where
  awemeList : List ApiAweme
deriving DecidableEq, Repr

/-- Model of `extractFromApi(url)`: a falsy video id returns no formats
before any fetch; a non-2xx response or transport failure (including a JSON
parse failure) yields no formats (swallowed); otherwise the first aweme's
truthy `play_addr.url_list[0]` yields an `'original (no watermark)'` record
and its truthy `download_addr.url_list[0]` an `'original (watermark)'`
record. -/
def extractFromApi (url : String) (fetch : FetchResult ApiResponse) : List VideoFormat :=
  match (jsSplitStr "/video/" url).get? 1 with
  | none => []
  | some tail =>
    let videoId := (jsSplitC '?' tail).headD ""
    if videoId = "" then []
    else
      match fetch with
      | .httpErr _ => []
      | .netErr _ => []
      | .ok data =>
        match data.awemeList.head? with
        | none => []
        | some aweme =>
          (match aweme.playAddrUrls.head? with
           | some u => if u ≠ "" then [tkFormat "original (no watermark)" u] else []
           | none => []) ++
          (match aweme.downloadAddrUrls.head? with
           | some u => if u ≠ "" then [tkFormat "original (watermark)" u] else []
           | none => [])

/-- The duplicate-url filter of `fetchTikTokInfo`
(`index === self.findIndex(t => t.url === format.url)`): keep a record
exactly when it is the first occurrence of its url. -/
def dedupByUrl : List VideoFormat → List VideoFormat :=
  go []
where
  go (seen : List String) : List VideoFormat → List VideoFormat
    | [] => []
    | f :: rest =>
      if f.url ∈ seen then go seen rest else f :: go (f.url :: seen) rest

/-- Whether a record's quality label carries the no-watermark marker. -/
def hasNoWatermark (f : VideoFormat) : Bool := jsIncludes f.quality "no watermark"

/-- The sort comparator at the end of `fetchTikTokInfo`: no-watermark
records come strictly first, all other pairs tie.  `r a b` means
`cmp a b ≤ 0`. -/
def tkInfoRel (a b : VideoFormat) : Prop :=
  hasNoWatermark a = true ∨ hasNoWatermark b = false

instance : DecidableRel tkInfoRel := fun _ _ =>
  inferInstanceAs (Decidable (_ ∨ _))

/-- The candidate formats after the embed fallback of `fetchTikTokInfo`:
the main-page formats, extended by the embed strategy only when they are
empty and an embed url can be built. -/
def tkFormats1 (url : String) (page : TikTokPage)
    (embedFetch : FetchResult (List String)) : List VideoFormat :=
  let formats0 := extractFormatsTk page
  if formats0.isEmpty then
    match getEmbedUrl url with
    | some _ => formats0 ++ extractFromEmbed embedFetch
    | none => formats0
  else formats0

/-- The candidate-format accumulation of `fetchTikTokInfo` on a successfully
fetched main page: main-page formats; if none, the embed strategy (only
when an embed url can be built); if still none, the API strategy. -/
def tkRawFormats (url : String) (page : TikTokPage)
    (embedFetch : FetchResult (List String)) (apiFetch : FetchResult ApiResponse) :
    List VideoFormat :=
  let formats1 := tkFormats1 url page embedFetch
  if formats1.isEmpty then formats1 ++ extractFromApi url apiFetch else formats1

/-- The `TikTokVideoInfo` result record of `fetchTikTokInfo`. -/
structure TikTokVideoInfo where
  title : String
  description : String
  duration : Nat
  thumbnail : String
  formats : List VideoFormat
deriving DecidableEq, Repr

/-- Model of `fetchTikTokInfo(url)`: a non-2xx main-page response throws
`HTTP error! status: N` and a transport failure throws its own message,
both caught by the surrounding `catch` and re-thrown as
`Failed to fetch TikTok info: ...`; on a 2xx main page the fallback chain
accumulates candidates, drops empty urls, deduplicates by url keeping the
first occurrence, and sorts no-watermark records first. -/
def fetchTikTokInfo (url : String) (mainFetch : FetchResult TikTokPage)
    (embedFetch : FetchResult (List String)) (apiFetch : FetchResult ApiResponse) :
    Except String TikTokVideoInfo :=
  match mainFetch with
  | .httpErr status =>
    .error ("Failed to fetch TikTok info: HTTP error! status: " ++ toString status)
  | .netErr msg => .error ("Failed to fetch TikTok info: " ++ msg)
  | .ok page =>
    let deduped :=
      dedupByUrl ((tkRawFormats url page embedFetch apiFetch).filter fun f => f.url ≠ "")
    .ok
      { title := page.title, description := page.description,
        duration := page.duration, thumbnail := page.thumbnail,
        formats := deduped.insertionSort tkInfoRel }

/-- Model of `extractTikTokVideo(url)` (with `sanitizeTikTokUrl` abstracted
into the url argument): wrap any `fetchTikTokInfo` failure, fail when the
chain produced zero formats, and otherwise assemble the `VideoMetadata`. -/
def extractTikTokVideo (url : String) (mainFetch : FetchResult TikTokPage)
    (embedFetch : FetchResult (List String)) (apiFetch : FetchResult ApiResponse) :
    Except String VideoMetadata :=
  match fetchTikTokInfo url mainFetch embedFetch apiFetch with
  | .error msg => .error ("Failed to extract TikTok video: " ++ msg)
  | .ok info =>
    if info.formats.isEmpty then
      .error ("Failed to extract TikTok video: " ++ "No video formats found")
    else
      .ok
        { title := info.title, description := some info.description,
          duration := info.duration, thumbnail := some info.thumbnail,
          formats := info.formats, downloadUrl := none }

/-! ## Source model: `extractVideo` orchestrator (`extractvideo.ts`) -/

/-- The net effect of `{ field: request.field || dflt, ..., ...request }` on
one string field: the spread re-copies every property PRESENT on `request`
(including present-but-`undefined` ones), so the computed default survives
only when the property is entirely absent. -/
def jsSpreadS (x : JSOpt String) (dflt : String) : JSOpt String :=
  match x with
  | .absent => .val dflt
  | other => other

/-- As `jsSpreadS`, for the boolean fields. -/
def jsSpreadB (x : JSOpt Bool) (dflt : Bool) : JSOpt Bool :=
  match x with
  | .absent => .val dflt
  | other => other

/-- Model of the `params` object built by `extractVideo`:
`{ format: request.format || 'mp4', quality: request.quality || 'highest',
download: request.download || false, info: request.info || false,
type: request.type || 'video', ...request }`. -/
def applyDefaults (r : VideoExtractRequest) : VideoExtractRequest :=
  { url := r.url
    format := jsSpreadS r.format "mp4"
    quality := jsSpreadS r.quality "highest"
    download := jsSpreadB r.download false
    info := jsSpreadB r.info false
    type := jsSpreadS r.type "video" }

/-- `getSupportedPlatforms()` joins the capitalized keys of `isPlatform`
(defined in `src/processor/platform`, which is not part of the provided
sources).  Modelled from the spec: the supported platforms are
`['youtube', 'tiktok']` (spec §6 and §8, "Unsupported platform: ... naming
the supported platform list"). -/
def supportedPlatformsStr : String := "Youtube, Tiktok"

/-- The format filter of both platform branches of `extractVideo`: when
`params.format` is truthy, keep case-insensitive exact container matches
and throw when none remain. -/
def applyFormatFilter (fmt : JSOpt String) (fs : List VideoFormat) :
    Except String (List VideoFormat) :=
  if jsTruthyS fmt then
    let kept := fs.filter fun f => jsToLower f.format = jsToLower (jsValS fmt)
    if kept.isEmpty then
      .error ("No formats matching \x27" ++ jsValS fmt ++ "\x27 found")
    else .ok kept
  else .ok fs

/-- The quality filter of both platform branches: when `params.quality` is
truthy and not the sentinel `'highest'`, keep case-insensitive substring
matches of the quality label and throw when none remain. -/
def applyQualityFilter (q : JSOpt String) (fs : List VideoFormat) :
    Except String (List VideoFormat) :=
  if jsTruthyS q ∧ jsValS q ≠ "highest" then
    let kept := fs.filter fun f => jsIncludes (jsToLower f.quality) (jsToLower (jsValS q))
    if kept.isEmpty then
      .error ("No quality matching \x27" ++ jsValS q ++ "\x27 found")
    else .ok kept
  else .ok fs

/-- Decimal value of a digit run. -/
def digitsVal (l : List Char) : Nat :=
  l.foldl (fun acc c => acc * 10 + (c.toNat - '0'.toNat)) 0

/-- `quality.match(/(\d+)p/)`, then `parseInt(match[1])` with no-match as
`0`: the leftmost match of the regex starts at the start of a maximal digit
run whose following character is a lower-case `p` (a digit run not followed
by `p` contains no match start), so a single scan tracking the digit run
immediately before the cursor computes it. -/
def ytQualityNum (l : List Char) : Nat :=
  go [] l
where
  go (run : List Char) : List Char → Nat
    | [] => 0
    | c :: rest =>
      if c = 'p' ∧ run ≠ [] then digitsVal run
      else if c.isDigit then go (run ++ [c]) rest
      else go [] rest

/-- The YouTube `'highest'` comparator of `extractVideo`
(`getQualityNumber(b.quality) - getQualityNumber(a.quality)`, i.e.
descending): `r a b ↔ cmp a b ≤ 0`. -/
def ytHighestRel (a b : VideoFormat) : Prop :=
  ytQualityNum b.quality.toList ≤ ytQualityNum a.quality.toList

instance : DecidableRel ytHighestRel := fun _ _ => Nat.decLe _ _

/-- The TikTok `'highest'` comparator of `extractVideo`: the comparator
returns `-1` when only `a` carries the no-watermark marker, `1` when only
`b` does, and `(b.size || 0) - (a.size || 0)` otherwise, so `cmp a b ≤ 0`
(`a` need not follow `b`) holds exactly when only `a` is no-watermark, or
the two agree on the marker and `b.size ≤ a.size`. -/
def tkHighestRel (a b : VideoFormat) : Prop :=
  (hasNoWatermark a = true ∧ hasNoWatermark b = false) ∨
  (hasNoWatermark a = hasNoWatermark b ∧ b.size ≤ a.size)

instance : DecidableRel tkHighestRel := fun _ _ =>
  inferInstanceAs (Decidable (_ ∨ _))

/-- The `'highest'` sort of the YouTube branch: applied exactly when
`params.quality === 'highest'`. -/
def applySortYT (q : JSOpt String) (fs : List VideoFormat) : List VideoFormat :=
  if q = .val "highest" then fs.insertionSort ytHighestRel else fs

/-- The `'highest'` sort of the TikTok branch. -/
def applySortTk (q : JSOpt String) (fs : List VideoFormat) : List VideoFormat :=
  if q = .val "highest" then fs.insertionSort tkHighestRel else fs

/-- The per-platform `switch` of `extractVideo`.  `platform` is the result
of `detectPlatform(params.url)` (defined in `src/processor/platform`, not
part of the provided sources) and `fetched` is the outcome of the platform
extractor call (`extractYouTubeVideo` / `extractTikTokVideo`). -/
def platformStage (platform : String) (fetched : Except String VideoMetadata)
    (p : VideoExtractRequest) : Except String VideoMetadata :=
  if platform = "youtube" then
    match fetched with
    | .error e => .error e
    | .ok meta =>
      match applyFormatFilter p.format meta.formats with
      | .error e => .error e
      | .ok fs =>
        match applyQualityFilter p.quality fs with
        | .error e => .error e
        | .ok fs2 => .ok { meta with formats := applySortYT p.quality fs2 }
  else if platform = "tiktok" then
    match fetched with
    | .error e => .error e
    | .ok meta =>
      match applyFormatFilter p.format meta.formats with
      | .error e => .error e
      | .ok fs =>
        match applyQualityFilter p.quality fs with
        | .error e => .error e
        | .ok fs2 => .ok { meta with formats := applySortTk p.quality fs2 }
  else
    .error ("Unsupported platform. Currently supports: " ++ supportedPlatformsStr)

/-- The media-type filter applied to all platforms after the `switch`: when
`params.type` is truthy, keep records with exactly that `type` and throw
when none remain. -/
def applyTypeFilter (t : JSOpt String) (fs : List VideoFormat) :
    Except String (List VideoFormat) :=
  if jsTruthyS t then
    let kept := fs.filter fun f => f.type = jsValS t
    if kept.isEmpty then .error ("No " ++ jsValS t ++ " formats found")
    else .ok kept
  else .ok fs

/-- The final url-presence filter: drop records whose url is falsy or empty
and throw when none remain. -/
def applyUrlFilter (fs : List VideoFormat) : Except String (List VideoFormat) :=
  let kept := fs.filter fun f => f.url ≠ ""
  if kept.isEmpty then .error "No valid formats found with URLs" else .ok kept

/-- The tail of the `extractVideo` try-block shared by all platforms: type
filter, url filter, optional `downloadUrl` assignment from the first
remaining record, and the info-only trim (clearing `formats` and deleting
`downloadUrl`), in this order. -/
def afterPlatform (p : VideoExtractRequest) (meta : VideoMetadata) :
    Except String VideoMetadata :=
  match applyTypeFilter p.type meta.formats with
  | .error e => .error e
  | .ok fs =>
    match applyUrlFilter fs with
    | .error e => .error e
    | .ok fs2 =>
      let m2 := { meta with formats := fs2 }
      let m3 :=
        if jsTruthyB p.download then
          { m2 with downloadUrl := fs2.head?.map (fun f => f.url) }
        else m2
      .ok (if jsTruthyB p.info then { m3 with formats := [], downloadUrl := none } else m3)

/-- The whole try-block of `extractVideo` (everything the single
`catch (error)` wraps). -/
def extractVideoInner (platform : String) (fetched : Except String VideoMetadata)
    (p : VideoExtractRequest) : Except String VideoMetadata :=
  match platformStage platform fetched p with
  | .error e => .error e
  | .ok meta => afterPlatform p meta

/-- Model of `extractVideo(request)`: a falsy `request.url` throws the bare
`URL is required`; otherwise defaults are merged (`applyDefaults`), the
platform pipeline runs, and any failure is re-thrown once as
`Error extracting video: <inner message>`. -/
def extractVideo (platform : String) (fetched : Except String VideoMetadata)
    (request : VideoExtractRequest) : Except String VideoMetadata :=
  if ¬ jsTruthyS request.url then .error "URL is required"
  else
    match extractVideoInner platform fetched (applyDefaults request) with
    | .error e => .error ("Error extracting video: " ++ e)
    | .ok m => .ok m

/-! ## Source model: HTTP handlers (`mdu.ts`) -/

/-- The query parameters of `GET /extract` (validated by the façade:
`url` is a required string, the rest optional strings). -/
structure ExtractQuery where
  url : String
  format : Option String
  quality : Option String
  download : Option String
  info : Option String
  type : Option String
deriving DecidableEq, Repr

/-- The request object the `/extract` handler passes to `extractVideo`:
every property is named in the object literal, so absent query parameters
become PRESENT-but-`undefined` request properties, and
`download` / `info` become present booleans via `=== 'true'`. -/
def extractHandlerRequest (q : ExtractQuery) : VideoExtractRequest :=
  { url := .val q.url
    format := match q.format with | none => .undef | some s => .val s
    quality := match q.quality with | none => .undef | some s => .val s
    download := .val (q.download = some "true")
    info := .val (q.info = some "true")
    type := match q.type with | none => .undef | some s => .val s }

/-- The field-by-field object re-map of the `/formats` handler
(`.map(format => ({quality: format.quality, ...}))`); field-identical to its
argument. -/
def remapFormat (f : VideoFormat) : VideoFormat :=
  { quality := f.quality, format := f.format, mimeType := f.mimeType,
    type := f.type, size := f.size, url := f.url }

/-- Model of the `GET /formats` handler body: a falsy `url` throws the bare
`URL is required`; inside the try-block the platform's lister is called
(`listTikTokFormats`, or for YouTube `getFormatsByType` when `query.type`
is truthy else `listAvailableFormats`), an unknown platform throws; the
results are filtered to truthy urls and re-mapped field by field; an empty
remainder throws; any failure inside the try is wrapped once as
`Failed to list formats: ...`. -/
def formatsHandler (urlQ : Option String) (typeQ : Option String) (platform : String)
    (tiktokList : Except String (List VideoFormat))
    (ytByType : Except String (List VideoFormat))
    (ytAll : Except String (List VideoFormat)) :
    Except String (String × List VideoFormat) :=
  match urlQ with
  | none => .error "URL is required"
  | some u =>
    if u = "" then .error "URL is required"
    else
      let fetched : Except String (List VideoFormat) :=
        if platform = "tiktok" then tiktokList
        else if platform = "youtube" then
          (match typeQ with
           | some t => if t ≠ "" then ytByType else ytAll
           | none => ytAll)
        else .error "Unsupported platform"
      match fetched with
      | .error e => .error ("Failed to list formats: " ++ e)
      | .ok formats =>
        let validFormats := (formats.filter fun f => f.url ≠ "").map remapFormat
        if validFormats.isEmpty then
          .error ("Failed to list formats: " ++ "No valid formats found with URLs")
        else .ok (platform, validFormats)

/-! ## Sorting toolkit -/

section SortToolkit

variable {α : Type} (r : α → α → Prop) [DecidableRel r]

theorem filter_orderedInsert_pos (p : α → Bool) (a : α) (l : List α)
    (ha : p a = true) (h : ∀ b ∈ l, p b = true → r a b) :
    (l.orderedInsert r a).filter p = a :: l.filter p := by
  induction l with
  | nil => simp [List.orderedInsert, ha]
  | cons b t ih =>
    simp only [List.orderedInsert]
    by_cases hr : r a b
    · simp [hr, ha]
    · have hb : p b = false := by
        by_contra hpb
        exact hr (h b (List.mem_cons_self b t) (by simpa using hpb))
      have := ih (fun c hc hpc => h c (List.mem_cons_of_mem b hc) hpc)
      simp [hr, hb, this]

theorem filter_orderedInsert_neg (p : α → Bool) (a : α) (l : List α)
    (ha : p a = false) :
    (l.orderedInsert r a).filter p = l.filter p := by
  induction l with
  | nil => simp [List.orderedInsert, ha]
  | cons b t ih =>
    simp only [List.orderedInsert]
    by_cases hr : r a b
    · simp [hr, ha]
    · by_cases hb : p b = true
      · simp [hr, hb, ih]
      · simp only [Bool.not_eq_true] at hb
        simp [hr, hb, ih]

/-- Stability of the JS sort: elements of a class that is mutually tied
under the comparator appear in the sorted output exactly as they appear in
the input. -/
theorem filter_insertionSort_of_mutual (p : α → Bool)
    (hmut : ∀ a b, p a = true → p b = true → r a b) :
    ∀ l : List α, (l.insertionSort r).filter p = l.filter p := by
  intro l
  induction l with
  | nil => simp [List.insertionSort]
  | cons x t ih =>
    simp only [List.insertionSort]
    by_cases hx : p x = true
    · rw [filter_orderedInsert_pos r p x _ hx
        (fun b _ hpb => hmut x b hx hpb), ih]
      simp [hx]
    · simp only [Bool.not_eq_true] at hx
      rw [filter_orderedInsert_neg r p x _ hx, ih]
      simp [hx]

/-- The sorted output is pairwise related (given a total, transitive
comparator). -/
theorem pairwise_insertionSort (htot : ∀ a b, r a b ∨ r b a)
    (htrans : ∀ a b c, r a b → r b c → r a c) (l : List α) :
    (l.insertionSort r).Pairwise r :=
  @List.sorted_insertionSort α r _ ⟨htot⟩ ⟨htrans⟩ l

end SortToolkit

/-! ## Query-string parsing lemmas (for the cipher round-trip) -/

theorem formDecode_cons_plain (c : Char) (rest : List Char)
    (h1 : c ≠ '+') (h2 : c ≠ '%') :
    formDecode (c :: rest) = c :: formDecode rest := by
  rw [formDecode.eq_def]
  split
  · simp_all
  · simp_all
  · simp_all
  · rename_i heq
    injection heq with e1 e2
    subst e1; subst e2
    rfl

theorem formDecode_plain (l : List Char) (hp : '+' ∉ l) (hpc : '%' ∉ l) :
    formDecode l = l := by
  induction l with
  | nil => rfl
  | cons c rest ih =>
    simp only [List.mem_cons, not_or] at hp hpc
    rw [formDecode_cons_plain c rest (fun h => hp.1 h.symm) (fun h => hpc.1 h.symm)]
    rw [ih hp.2 hpc.2]

theorem decodeURIComp_cons_plain (c : Char) (rest : List Char) (h : c ≠ '%') :
    decodeURIComp (c :: rest) = (decodeURIComp rest).map (c :: ·) := by
  rw [decodeURIComp.eq_def]
  split
  · simp_all
  · simp_all
  · simp_all
  · simp_all
  · rename_i heq
    injection heq with e1 e2
    subst e1; subst e2
    rfl

theorem decodeURIComp_plain (l : List Char) (hpc : '%' ∉ l) :
    decodeURIComp l = some l := by
  induction l with
  | nil => rfl
  | cons c rest ih =>
    simp only [List.mem_cons, not_or] at hpc
    rw [decodeURIComp_cons_plain c rest (fun h => hpc.1 h.symm)]
    rw [ih hpc.2]
    rfl

theorem splitOnChar_of_not_mem (c : Char) (l : List Char) (h : c ∉ l) :
    splitOnChar c l = [l] := by
  induction l with
  | nil => rfl
  | cons x xs ih =>
    simp only [List.mem_cons, not_or] at h
    have hx : ¬ x = c := fun e => h.1 e.symm
    simp only [splitOnChar]
    rw [ih h.2]
    simp [hx]

theorem splitOnChar_append (c : Char) (a b : List Char) (h : c ∉ a) :
    splitOnChar c (a ++ c :: b) = a :: splitOnChar c b := by
  induction a with
  | nil =>
    simp only [List.nil_append, splitOnChar]
    cases hb : splitOnChar c b with
    | nil => exact absurd hb (splitOnChar_ne_nil c b)
    | cons h t => simp
  | cons x xs ih =>
    simp only [List.mem_cons, not_or] at h
    have hx : ¬ x = c := fun e => h.1 e.symm
    simp only [List.cons_append, splitOnChar, List.append_eq]
    rw [ih h.2]
    simp [hx]

theorem splitPair_append (k v : List Char) (h : '=' ∉ k) :
    splitPair (k ++ '=' :: v) = (k, v) := by
  induction k with
  | nil => rfl
  | cons x xs ih =>
    simp only [List.mem_cons, not_or] at h
    simp only [List.cons_append]
    rw [splitPair.eq_def]
    split
    · simp_all
    · rename_i heq
      injection heq with e1 _
      exact absurd e1.symm h.1
    · rename_i heq
      injection heq with e1 e2
      subst e1
      simp only [← e2, ih h.2]

theorem toList_cipher3 (U S : String) :
    ("url=" ++ U ++ "&sp=signature&s=" ++ S).toList =
      ('u' :: 'r' :: 'l' :: '=' :: U.toList) ++ '&' ::
        (('s' :: 'p' :: '=' :: "signature".toList) ++ '&' :: ('s' :: '=' :: S.toList)) := by
  simp only [String.toList, String.data_append]
  simp [List.append_assoc]

theorem toList_cipher1 (U : String) :
    ("url=" ++ U).toList = 'u' :: 'r' :: 'l' :: '=' :: U.toList := by
  simp only [String.toList, String.data_append]
  simp

theorem parseSearchParams_cipher3 (U S : String)
    (hUamp : '&' ∉ U.toList) (hSamp : '&' ∉ S.toList)
    (hUpct : '%' ∉ U.toList) (hUplus : '+' ∉ U.toList)
    (hSpct : '%' ∉ S.toList) (hSplus : '+' ∉ S.toList) :
    parseSearchParams ("url=" ++ U ++ "&sp=signature&s=" ++ S) =
      [("url", U), ("sp", "signature"), ("s", S)] := by
  have h1 : '&' ∉ ('u' :: 'r' :: 'l' :: '=' :: U.toList) := by
    intro h
    rcases List.mem_cons.1 h with h | h
    · exact absurd h (by decide)
    rcases List.mem_cons.1 h with h | h
    · exact absurd h (by decide)
    rcases List.mem_cons.1 h with h | h
    · exact absurd h (by decide)
    rcases List.mem_cons.1 h with h | h
    · exact absurd h (by decide)
    exact hUamp h
  have h2 : '&' ∉ ('s' :: 'p' :: '=' :: "signature".toList) := by decide
  have h3 : '&' ∉ ('s' :: '=' :: S.toList) := by
    intro h
    rcases List.mem_cons.1 h with h | h
    · exact absurd h (by decide)
    rcases List.mem_cons.1 h with h | h
    · exact absurd h (by decide)
    exact hSamp h
  have e1 : splitPair ('u' :: 'r' :: 'l' :: '=' :: U.toList) = (['u', 'r', 'l'], U.toList) :=
    splitPair_append ['u', 'r', 'l'] U.toList (by decide)
  have e2 : splitPair ('s' :: 'p' :: '=' :: "signature".toList) =
      (['s', 'p'], "signature".toList) :=
    splitPair_append ['s', 'p'] "signature".toList (by decide)
  have e3 : splitPair ('s' :: '=' :: S.toList) = (['s'], S.toList) :=
    splitPair_append ['s'] S.toList (by decide)
  unfold parseSearchParams
  rw [toList_cipher3, splitOnChar_append _ _ _ h1, splitOnChar_append _ _ _ h2,
    splitOnChar_of_not_mem _ _ h3]
  simp only [List.filter, List.map, decide_not]
  rw [e1, e2, e3]
  simp only [formDecode_plain U.toList hUplus hUpct, formDecode_plain S.toList hSplus hSpct]
  rfl

theorem parseSearchParams_urlOnly (U : String)
    (hUamp : '&' ∉ U.toList) (hUpct : '%' ∉ U.toList) (hUplus : '+' ∉ U.toList) :
    parseSearchParams ("url=" ++ U) = [("url", U)] := by
  have h1 : '&' ∉ ('u' :: 'r' :: 'l' :: '=' :: U.toList) := by
    intro h
    rcases List.mem_cons.1 h with h | h
    · exact absurd h (by decide)
    rcases List.mem_cons.1 h with h | h
    · exact absurd h (by decide)
    rcases List.mem_cons.1 h with h | h
    · exact absurd h (by decide)
    rcases List.mem_cons.1 h with h | h
    · exact absurd h (by decide)
    exact hUamp h
  have e1 : splitPair ('u' :: 'r' :: 'l' :: '=' :: U.toList) = (['u', 'r', 'l'], U.toList) :=
    splitPair_append ['u', 'r', 'l'] U.toList (by decide)
  unfold parseSearchParams
  rw [toList_cipher1, splitOnChar_of_not_mem _ _ h1]
  simp only [List.filter, List.map, decide_not]
  rw [e1]
  simp only [formDecode_plain U.toList hUplus hUpct]
  rfl

theorem decodeCipher_plain3 (U S : String) (hU0 : U ≠ "") (hS0 : S ≠ "")
    (hUamp : '&' ∉ U.toList) (hUpct : '%' ∉ U.toList) (hUplus : '+' ∉ U.toList)
    (hSamp : '&' ∉ S.toList) (hSpct : '%' ∉ S.toList) (hSplus : '+' ∉ S.toList) :
    decodeCipher ("url=" ++ U ++ "&sp=signature&s=" ++ S) =
      U ++ "&signature=" ++ encodeURICompStr S := by
  unfold decodeCipher
  rw [parseSearchParams_cipher3 U S hUamp hSamp hUpct hUplus hSpct hSplus]
  dsimp only
  have g1 : searchParamsGet [("url", U), ("sp", "signature"), ("s", S)] "url" = some U := rfl
  have g2 : searchParamsGet [("url", U), ("sp", "signature"), ("s", S)] "sp" =
      some "signature" := rfl
  have g3 : searchParamsGet [("url", U), ("sp", "signature"), ("s", S)] "s" = some S := rfl
  rw [g1, g2, g3]
  simp only [Option.getD_some]
  rw [if_neg hU0, decodeURIComp_plain U.toList hUpct]
  dsimp only
  rw [if_pos ⟨hS0, by decide⟩]
  apply String.ext
  simp [String.data_append, List.append_assoc]

theorem decodeCipher_plain1 (U : String) (hU0 : U ≠ "")
    (hUamp : '&' ∉ U.toList) (hUpct : '%' ∉ U.toList) (hUplus : '+' ∉ U.toList) :
    decodeCipher ("url=" ++ U) = U := by
  unfold decodeCipher
  rw [parseSearchParams_urlOnly U hUamp hUpct hUplus]
  dsimp only
  have g1 : searchParamsGet [("url", U)] "url" = some U := rfl
  have g2 : searchParamsGet [("url", U)] "sp" = none := rfl
  have g3 : searchParamsGet [("url", U)] "s" = none := rfl
  rw [g1, g2, g3]
  simp only [Option.getD_some, Option.getD_none]
  rw [if_neg hU0, decodeURIComp_plain U.toList hUpct]
  dsimp only
  simp

theorem headD_jsSplitC (c : Char) (s : String) :
    (jsSplitC c s).headD "" = ⟨s.toList.takeWhile (· ≠ c)⟩ := by
  unfold jsSplitC
  cases h : splitOnChar c s.toList with
  | nil => exact absurd h (splitOnChar_ne_nil c s.toList)
  | cons hd tl =>
    have hh := headD_splitOnChar c s.toList
    rw [h] at hh
    simp only [List.headD_cons] at hh
    simp [hh]

/-- C4 (counterexample): the round-trip fails for a base url containing a
percent-escape: `URLSearchParams` already form-decodes the `url` value and
`decodeCipher` then applies `decodeURIComponent` on top, so
`url=a%20b&sp=signature&s=sig` decodes to `a b&signature=sig`, not
`a%20b&signature=sig`, and `url=a%20b` alone decodes to `a b`, not
`a%20b`. -/
theorem c4_decodeCipher_counterexample :
    decodeCipher "url=a%20b&sp=signature&s=sig" = "a b&signature=sig" ∧
    decodeCipher "url=a%20b&sp=signature&s=sig" ≠
      "a%20b" ++ "&signature=" ++ encodeURICompStr "sig" ∧
    decodeCipher "url=a%20b" ≠ "a%20b" := by
  refine ⟨by decide, by decide, by decide⟩

/-- C4 (amended): for a base url `U` and signature value `S` that contain no
`&`, no percent-escape and no `+` (so that the query-string decoding layers
are the identity on them), and are non-empty, decoding
`url=U&sp=signature&s=S` yields `U ++ "&signature=" ++ encodeURIComponent S`
and decoding `url=U` alone yields `U` unmodified. -/
theorem c4_decodeCipher_roundTrip (U S : String) (hU0 : U ≠ "") (hS0 : S ≠ "")
    (hU : '&' ∉ U.toList ∧ '%' ∉ U.toList ∧ '+' ∉ U.toList)
    (hS : '&' ∉ S.toList ∧ '%' ∉ S.toList ∧ '+' ∉ S.toList) :
    decodeCipher ("url=" ++ U ++ "&sp=signature&s=" ++ S) =
      U ++ "&signature=" ++ encodeURICompStr S ∧
    decodeCipher ("url=" ++ U) = U :=
  ⟨decodeCipher_plain3 U S hU0 hS0 hU.1 hU.2.1 hU.2.2 hS.1 hS.2.1 hS.2.2,
   decodeCipher_plain1 U hU0 hU.1 hU.2.1 hU.2.2⟩

/-- Witness for `c4_decodeCipher_roundTrip` at a concrete url and
signature. -/
theorem c4_decodeCipher_roundTrip_witness :
    decodeCipher ("url=" ++ "https://e.com/v?a=1" ++ "&sp=signature&s=" ++ "AbC") =
      "https://e.com/v?a=1" ++ "&signature=" ++ encodeURICompStr "AbC" ∧
    decodeCipher ("url=" ++ "https://e.com/v?a=1") = "https://e.com/v?a=1" :=
  c4_decodeCipher_roundTrip "https://e.com/v?a=1" "AbC" (by decide) (by decide)
    ⟨by decide, by decide, by decide⟩ ⟨by decide, by decide, by decide⟩

/-- C10: `getMimeType` is total; it classifies as `audio` exactly when the
media-type portion before the first `/` (after stripping everything from the
first `;`) is literally `audio`, and as `video` in every other case
(including an `undefined` argument); consequently a descriptor lacking a
`mimeType` field that still has a usable url produces a record with
`mimeType` `"/"`, container `"unknown"` and type `"video"`. -/
theorem c10_getMimeType_total :
    (∀ m : Option String,
       (getMimeType m).snd = "audio" ∨ (getMimeType m).snd = "video") ∧
    (∀ s : String,
       ((getMimeType (some s)).snd = "audio" ↔
         (s.toList.takeWhile (· ≠ ';')).takeWhile (· ≠ '/') = "audio".toList)) ∧
    (getMimeType none).snd = "video" ∧
    (∀ (raw : RawYTFormat) (f : VideoFormat), raw.mimeType = none →
       processYTFormat raw = some f →
       f.mimeType = "/" ∧ f.format = "unknown" ∧ f.type = "video") := by
  refine ⟨?_, ?_, by decide, ?_⟩
  · intro m
    unfold getMimeType
    dsimp only
    split
    · left; rfl
    · right; rfl
  · intro s
    unfold getMimeType
    dsimp only
    rw [headD_jsSplitC, headD_jsSplitC]
    constructor
    · intro h
      split at h
      · rename_i hc
        rw [String.ext_iff] at hc
        simpa using hc
      · exact absurd h (by decide)
    · intro h
      have hc : (⟨(s.toList.takeWhile (· ≠ ';')).takeWhile (· ≠ '/')⟩ : String) = "audio" := by
        apply String.ext
        simpa using h
      simp only [String.toList] at hc ⊢
      rw [if_pos]
      exact hc
  · intro raw f hm hpf
    unfold processYTFormat at hpf
    rw [hm] at hpf
    dsimp only at hpf
    split at hpf
    · exact absurd hpf (by simp)
    · rename_i hurl
      injection hpf with hf
      subst hf
      refine ⟨rfl, rfl, rfl⟩

/-- Witness for `c10_getMimeType_total` at concrete inputs: an
`audio/mp4;codecs` MIME string classifies as audio and a descriptor lacking
a MIME type yields the `"/"`-record. -/
theorem c10_getMimeType_witness :
    ((getMimeType (some "audio/mp4;codecs=x")).snd = "audio" ↔
      ("audio/mp4;codecs=x".toList.takeWhile (· ≠ ';')).takeWhile (· ≠ '/') =
        "audio".toList) ∧
    (({ url := some "http://u", signatureCipher := none, mimeType := none,
        qualityLabel := some "q", quality := none, contentLength := none : RawYTFormat }.mimeType =
          none) ∧
      processYTFormat
          { url := some "http://u", signatureCipher := none, mimeType := none,
            qualityLabel := some "q", quality := none, contentLength := none } =
        some { quality := "q", format := "unknown", mimeType := "/", type := "video",
               size := 0, url := "http://u" } ∧
      (({ quality := "q", format := "unknown", mimeType := "/", type := "video",
          size := 0, url := "http://u" : VideoFormat }).mimeType = "/" ∧
        ({ quality := "q", format := "unknown", mimeType := "/", type := "video",
           size := 0, url := "http://u" : VideoFormat }).format = "unknown" ∧
        ({ quality := "q", format := "unknown", mimeType := "/", type := "video",
           size := 0, url := "http://u" : VideoFormat }).type = "video")) :=
  ⟨c10_getMimeType_total.2.1 "audio/mp4;codecs=x",
   ⟨rfl, by decide,
    c10_getMimeType_total.2.2.2
      { url := some "http://u", signatureCipher := none, mimeType := none,
        qualityLabel := some "q", quality := none, contentLength := none }
      { quality := "q", format := "unknown", mimeType := "/", type := "video",
        size := 0, url := "http://u" }
      rfl (by decide)⟩⟩

/-! ## Orchestrator pipeline lemmas -/

theorem getMimeType_type (m : Option String) :
    (getMimeType m).snd = "audio" ∨ (getMimeType m).snd = "video" := by
  unfold getMimeType
  dsimp only
  split
  · left; rfl
  · right; rfl

theorem applyFormatFilter_ok_mem {fmt : JSOpt String} {fs fs' : List VideoFormat}
    (h : applyFormatFilter fmt fs = .ok fs') : ∀ f ∈ fs', f ∈ fs := by
  unfold applyFormatFilter at h
  split at h
  · dsimp only at h
    split at h
    · exact absurd h (by simp)
    · injection h with h
      subst h
      exact fun f hf => List.mem_of_mem_filter hf
  · injection h with h
    subst h
    exact fun f hf => hf

theorem applyQualityFilter_ok_mem {q : JSOpt String} {fs fs' : List VideoFormat}
    (h : applyQualityFilter q fs = .ok fs') : ∀ f ∈ fs', f ∈ fs := by
  unfold applyQualityFilter at h
  split at h
  · dsimp only at h
    split at h
    · exact absurd h (by simp)
    · injection h with h
      subst h
      exact fun f hf => List.mem_of_mem_filter hf
  · injection h with h
    subst h
    exact fun f hf => hf

theorem applyTypeFilter_ok_mem {t : JSOpt String} {fs fs' : List VideoFormat}
    (h : applyTypeFilter t fs = .ok fs') : ∀ f ∈ fs', f ∈ fs := by
  unfold applyTypeFilter at h
  split at h
  · dsimp only at h
    split at h
    · exact absurd h (by simp)
    · injection h with h
      subst h
      exact fun f hf => List.mem_of_mem_filter hf
  · injection h with h
    subst h
    exact fun f hf => hf

theorem applyUrlFilter_ok {fs fs' : List VideoFormat}
    (h : applyUrlFilter fs = .ok fs') :
    (∀ f ∈ fs', f ∈ fs ∧ f.url ≠ "") ∧ fs' ≠ [] := by
  unfold applyUrlFilter at h
  dsimp only at h
  split at h
  · exact absurd h (by simp)
  · rename_i hne
    injection h with h
    subst h
    refine ⟨fun f hf => ⟨List.mem_of_mem_filter hf, ?_⟩, by simpa using hne⟩
    have := List.of_mem_filter hf
    simpa using this

theorem applySortYT_mem {q : JSOpt String} {fs : List VideoFormat} :
    ∀ f ∈ applySortYT q fs, f ∈ fs := by
  unfold applySortYT
  split
  · intro f hf
    exact ((List.perm_insertionSort ytHighestRel fs).mem_iff).1 hf
  · exact fun f hf => hf

theorem applySortTk_mem {q : JSOpt String} {fs : List VideoFormat} :
    ∀ f ∈ applySortTk q fs, f ∈ fs := by
  unfold applySortTk
  split
  · intro f hf
    exact ((List.perm_insertionSort tkHighestRel fs).mem_iff).1 hf
  · exact fun f hf => hf

theorem platformStage_ok {platform : String} {fetched : Except String VideoMetadata}
    {p : VideoExtractRequest} {meta' : VideoMetadata}
    (h : platformStage platform fetched p = .ok meta') :
    ∃ meta, fetched = .ok meta ∧ ∀ f ∈ meta'.formats, f ∈ meta.formats := by
  unfold platformStage at h
  split at h
  · cases fetched with
    | error e => exact absurd h (by simp)
    | ok meta =>
      dsimp only at h
      refine ⟨meta, rfl, ?_⟩
      cases hf : applyFormatFilter p.format meta.formats with
      | error e => rw [hf] at h; exact absurd h (by simp)
      | ok fs =>
        rw [hf] at h
        dsimp only at h
        cases hq : applyQualityFilter p.quality fs with
        | error e => rw [hq] at h; exact absurd h (by simp)
        | ok fs2 =>
          rw [hq] at h
          dsimp only at h
          injection h with h
          subst h
          intro f hmem
          dsimp only at hmem
          exact applyFormatFilter_ok_mem hf f
            (applyQualityFilter_ok_mem hq f (applySortYT_mem f hmem))
  · split at h
    · cases fetched with
      | error e => exact absurd h (by simp)
      | ok meta =>
        dsimp only at h
        refine ⟨meta, rfl, ?_⟩
        cases hf : applyFormatFilter p.format meta.formats with
        | error e => rw [hf] at h; exact absurd h (by simp)
        | ok fs =>
          rw [hf] at h
          dsimp only at h
          cases hq : applyQualityFilter p.quality fs with
          | error e => rw [hq] at h; exact absurd h (by simp)
          | ok fs2 =>
            rw [hq] at h
            dsimp only at h
            injection h with h
            subst h
            intro f hmem
            dsimp only at hmem
            exact applyFormatFilter_ok_mem hf f
              (applyQualityFilter_ok_mem hq f (applySortTk_mem f hmem))
    · exact absurd h (by simp)

theorem afterPlatform_ok {p : VideoExtractRequest} {meta m : VideoMetadata}
    (h : afterPlatform p meta = .ok m) :
    (∀ f ∈ m.formats, f ∈ meta.formats ∧ f.url ≠ "") ∧
    (jsTruthyB p.info = true → m.formats = [] ∧ m.downloadUrl = none) := by
  unfold afterPlatform at h
  cases ht : applyTypeFilter p.type meta.formats with
  | error e => rw [ht] at h; exact absurd h (by simp)
  | ok fs =>
    rw [ht] at h
    dsimp only at h
    cases hu : applyUrlFilter fs with
    | error e => rw [hu] at h; exact absurd h (by simp)
    | ok fs2 =>
      rw [hu] at h
      dsimp only at h
      injection h with h
      subst h
      constructor
      · intro f hf
        by_cases hinfo : jsTruthyB p.info = true
        · rw [if_pos hinfo] at hf
          simp at hf
        · rw [if_neg hinfo] at hf
          split at hf <;>
          · dsimp only at hf
            have hm := (applyUrlFilter_ok hu).1 f hf
            exact ⟨applyTypeFilter_ok_mem ht f hm.1, hm.2⟩
      · intro hinfo
        rw [if_pos hinfo]
        exact ⟨rfl, rfl⟩

theorem afterPlatform_error_of_empty_urls {p : VideoExtractRequest} {meta : VideoMetadata}
    (h : ∀ f ∈ meta.formats, f.url = "") :
    ∃ e, afterPlatform p meta = .error e := by
  unfold afterPlatform
  cases ht : applyTypeFilter p.type meta.formats with
  | error e => exact ⟨e, rfl⟩
  | ok fs =>
    dsimp only
    have hfs : ∀ f ∈ fs, f.url = "" := fun f hf => h f (applyTypeFilter_ok_mem ht f hf)
    have hempty : applyUrlFilter fs = .error "No valid formats found with URLs" := by
      unfold applyUrlFilter
      dsimp only
      rw [if_pos]
      rw [List.isEmpty_iff, List.filter_eq_nil_iff]
      intro f hf
      simp [hfs f hf]
    rw [hempty]
    exact ⟨"No valid formats found with URLs", rfl⟩

theorem extractVideo_error_of_empty_urls (platform : String)
    {fetched : Except String VideoMetadata} {meta : VideoMetadata}
    (r : VideoExtractRequest) (hfe : fetched = .ok meta)
    (h : ∀ f ∈ meta.formats, f.url = "") :
    ∃ e, extractVideo platform fetched r = .error e := by
  unfold extractVideo
  by_cases hurl : jsTruthyS r.url = true
  · rw [if_neg (by simp [hurl])]
    unfold extractVideoInner
    cases hps : platformStage platform fetched (applyDefaults r) with
    | error e => exact ⟨"Error extracting video: " ++ e, rfl⟩
    | ok meta' =>
      obtain ⟨meta0, hfe0, hsub⟩ := platformStage_ok hps
      rw [hfe] at hfe0
      injection hfe0 with hmeq
      have h' : ∀ f ∈ meta'.formats, f.url = "" := by
        intro f hf
        exact h f (hmeq ▸ hsub f hf)
      obtain ⟨e, he⟩ := afterPlatform_error_of_empty_urls (p := applyDefaults r) h'
      dsimp only
      rw [he]
      exact ⟨"Error extracting video: " ++ e, rfl⟩
  · rw [if_pos (by simp [hurl])]
    exact ⟨"URL is required", rfl⟩

/-- C9: a falsy url throws the bare `URL is required`; every other failure of
`extractVideo` surfaces as exactly one orchestrator-level wrap
`Error extracting video: <inner message>` around the inner pipeline
failure. -/
theorem c9_error_messages :
    (∀ (platform : String) (fetched : Except String VideoMetadata)
       (r : VideoExtractRequest), jsTruthyS r.url = false →
       extractVideo platform fetched r = .error "URL is required") ∧
    (∀ (platform : String) (fetched : Except String VideoMetadata)
       (r : VideoExtractRequest) (e : String), jsTruthyS r.url = true →
       extractVideo platform fetched r = .error e →
       ∃ m, e = "Error extracting video: " ++ m ∧
         extractVideoInner platform fetched (applyDefaults r) = .error m) := by
  constructor
  · intro platform fetched r hurl
    unfold extractVideo
    rw [if_pos (by simp [hurl])]
  · intro platform fetched r e hurl herr
    unfold extractVideo at herr
    rw [if_neg (by simp [hurl])] at herr
    cases hi : extractVideoInner platform fetched (applyDefaults r) with
    | error m =>
      rw [hi] at herr
      injection herr with herr
      exact ⟨m, herr.symm, rfl⟩
    | ok m =>
      rw [hi] at herr
      exact absurd herr (by simp)

/-- A request with an empty (falsy) url and no other properties. -/
def reqEmptyUrl : VideoExtractRequest :=
  ⟨.val "", .absent, .absent, .absent, .absent, .absent⟩

/-- A plain request carrying only a YouTube url. -/
def reqYtPlain : VideoExtractRequest :=
  ⟨.val "https://youtu.be/abcdefghijk", .absent, .absent, .absent, .absent, .absent⟩

/-- Witness for `c9_error_messages`: an empty url gives the bare message; a
failing YouTube extraction surfaces once-wrapped. -/
theorem c9_error_messages_witness :
    (jsTruthyS reqEmptyUrl.url = false ∧
     extractVideo "youtube" (.error "boom") reqEmptyUrl = .error "URL is required") ∧
    (∃ m, "Error extracting video: boom" = "Error extracting video: " ++ m ∧
      extractVideoInner "youtube" (.error "boom") (applyDefaults reqYtPlain) = .error m) :=
  ⟨⟨by decide, c9_error_messages.1 "youtube" (.error "boom") reqEmptyUrl (by decide)⟩,
   c9_error_messages.2 "youtube" (.error "boom") reqYtPlain
     "Error extracting video: boom" (by decide) (by decide)⟩

/-- The query of a bare `GET /extract?url=...` request (no optional
parameters supplied). -/
def c1Query : ExtractQuery :=
  { url := "https://youtu.be/dQw4w9WgXcQ", format := none, quality := none,
    download := none, info := none, type := none }

/-- An extraction result whose formats would be narrowed and re-ordered by
the documented defaults (`mp4` filter drops the webm record, `highest`
puts 1080p first, `video` type filter applies): a webm record first and an
mp4 record second. -/
def c1Meta : VideoMetadata :=
  { title := "t", description := none, duration := 0, thumbnail := none,
    formats := [⟨"360p", "webm", "video/webm", "video", 0, "http://a"⟩,
                ⟨"1080p", "mp4", "video/mp4", "video", 0, "http://b"⟩],
    downloadUrl := none }

/-- C1 (code-bug evidence): the `/extract` handler names every optional
property in its request literal, so absent query parameters arrive as
present-but-`undefined` properties; the `...request` spread in
`extractVideo` is applied AFTER the computed defaults and re-overrides them
with those `undefined`s.  On a bare `GET /extract?url=...` the dispatched
`format`/`quality`/`type` are therefore `undefined`, not
`mp4`/`highest`/`video`, and consequently no container filter, no `highest`
sort and no media-type filter runs: the metadata passes through
unchanged. -/
theorem c1_defaults_clobbered :
    (applyDefaults (extractHandlerRequest c1Query)).format = JSOpt.undef ∧
    (applyDefaults (extractHandlerRequest c1Query)).quality = JSOpt.undef ∧
    (applyDefaults (extractHandlerRequest c1Query)).type = JSOpt.undef ∧
    (applyDefaults (extractHandlerRequest c1Query)).format ≠ JSOpt.val "mp4" ∧
    (applyDefaults (extractHandlerRequest c1Query)).quality ≠ JSOpt.val "highest" ∧
    (applyDefaults (extractHandlerRequest c1Query)).type ≠ JSOpt.val "video" ∧
    extractVideo "youtube" (.ok c1Meta) (extractHandlerRequest c1Query) = .ok c1Meta := by
  refine ⟨rfl, rfl, rfl, by decide, by decide, by decide, by decide⟩

theorem extractVideo_ok_decomp {platform : String} {fetched : Except String VideoMetadata}
    {r : VideoExtractRequest} {m : VideoMetadata}
    (h : extractVideo platform fetched r = .ok m) :
    jsTruthyS r.url = true ∧
    ∃ meta', platformStage platform fetched (applyDefaults r) = .ok meta' ∧
      afterPlatform (applyDefaults r) meta' = .ok m := by
  unfold extractVideo at h
  by_cases hurl : jsTruthyS r.url = true
  · rw [if_neg (by simp [hurl])] at h
    refine ⟨hurl, ?_⟩
    cases hi : extractVideoInner platform fetched (applyDefaults r) with
    | error e => rw [hi] at h; exact absurd h (by simp)
    | ok m2 =>
      rw [hi] at h
      injection h with h
      subst h
      unfold extractVideoInner at hi
      cases hps : platformStage platform fetched (applyDefaults r) with
      | error e => rw [hps] at hi; exact absurd hi (by simp)
      | ok meta' =>
        rw [hps] at hi
        dsimp only at hi
        exact ⟨meta', rfl, hi⟩
  · rw [if_pos (by simp [hurl])] at h
    exact absurd h (by simp)

/-- C2: when `info` is `true` and the call succeeds, the returned formats
are empty and `downloadUrl` is deleted; the trim happens after all
validation, so an extraction whose records all lack urls still fails, and a
failed platform extraction still fails, `info` notwithstanding. -/
theorem c2_infoOnly_trim :
    (∀ (platform : String) (fetched : Except String VideoMetadata)
       (r : VideoExtractRequest) (m : VideoMetadata),
       r.info = JSOpt.val true → extractVideo platform fetched r = .ok m →
       m.formats = [] ∧ m.downloadUrl = none) ∧
    (∀ (platform : String) (fetched : Except String VideoMetadata)
       (r : VideoExtractRequest) (meta : VideoMetadata),
       r.info = JSOpt.val true → fetched = .ok meta →
       (∀ f ∈ meta.formats, f.url = "") →
       ∃ e, extractVideo platform fetched r = .error e) ∧
    (∀ (platform msg : String) (r : VideoExtractRequest),
       r.info = JSOpt.val true → jsTruthyS r.url = true →
       (platform = "youtube" ∨ platform = "tiktok") →
       extractVideo platform (.error msg) r =
         .error ("Error extracting video: " ++ msg)) := by
  refine ⟨?_, ?_, ?_⟩
  · intro platform fetched r m hinfo h
    obtain ⟨hurl, meta', hps, hap⟩ := extractVideo_ok_decomp h
    have hib : jsTruthyB (applyDefaults r).info = true := by
      simp [applyDefaults, jsSpreadB, hinfo, jsTruthyB]
    exact (afterPlatform_ok hap).2 hib
  · intro platform fetched r meta hinfo hfe hurls
    exact extractVideo_error_of_empty_urls platform r hfe hurls
  · intro platform msg r hinfo hurl hplat
    unfold extractVideo
    rw [if_neg (by simp [hurl])]
    have hi : extractVideoInner platform (.error msg) (applyDefaults r) = .error msg := by
      unfold extractVideoInner platformStage
      rcases hplat with h | h <;> subst h <;> simp
    rw [hi]

/-- A TikTok request with `info: true` and nothing else optional. -/
def c2Req : VideoExtractRequest :=
  ⟨.val "https://www.tiktok.com/@u/video/5", .absent, .absent, .absent, .val true, .absent⟩

/-- A one-format extraction result with a usable url. -/
def c2Meta : VideoMetadata :=
  { title := "t", description := none, duration := 0, thumbnail := none,
    formats := [⟨"original", "mp4", "video/mp4", "video", 0, "http://a"⟩],
    downloadUrl := none }

/-- The same extraction result with its only url empty. -/
def c2MetaNoUrls : VideoMetadata :=
  { title := "t", description := none, duration := 0, thumbnail := none,
    formats := [⟨"original", "mp4", "video/mp4", "video", 0, ""⟩],
    downloadUrl := none }

/-- `c2Meta` after the info-only trim. -/
def c2Trimmed : VideoMetadata :=
  { title := "t", description := none, duration := 0, thumbnail := none,
    formats := [], downloadUrl := none }

/-- Witness for `c2_infoOnly_trim` at concrete inputs. -/
theorem c2_infoOnly_trim_witness :
    (c2Req.info = JSOpt.val true ∧
     extractVideo "tiktok" (.ok c2Meta) c2Req = .ok c2Trimmed ∧
     c2Trimmed.formats = [] ∧ c2Trimmed.downloadUrl = none) ∧
    (∃ e, extractVideo "tiktok" (.ok c2MetaNoUrls) c2Req = .error e) ∧
    extractVideo "tiktok" (.error "dead") c2Req =
      .error ("Error extracting video: " ++ "dead") :=
  ⟨⟨rfl, by decide,
    c2_infoOnly_trim.1 "tiktok" (.ok c2Meta) c2Req c2Trimmed rfl (by decide)⟩,
   c2_infoOnly_trim.2.1 "tiktok" (.ok c2MetaNoUrls) c2Req c2MetaNoUrls rfl rfl
     (by decide),
   c2_infoOnly_trim.2.2 "tiktok" "dead" c2Req rfl (by decide) (Or.inr rfl)⟩

/-! ## TikTok producer lemmas -/

theorem extractFormatsTk_type {page : TikTokPage} :
    ∀ f ∈ extractFormatsTk page, f.type = "video" := by
  intro f hf
  unfold extractFormatsTk at hf
  dsimp only at hf
  rcases List.mem_append.1 hf with hf | hf
  · rcases List.mem_append.1 hf with hf | hf
    · obtain ⟨s, _, rfl⟩ := List.mem_map.1 hf
      rfl
    · cases hog : jsOrOpt page.ogVideo page.ogVideoUrl with
      | none => rw [hog] at hf; simp at hf
      | some v =>
        rw [hog] at hf
        dsimp only at hf
        split at hf
        · rw [List.mem_singleton] at hf
          subst hf
          rfl
        · simp at hf
  · obtain ⟨s, _, rfl⟩ := List.mem_map.1 hf
    rfl

theorem extractFromEmbed_type {fetch : FetchResult (List String)} :
    ∀ f ∈ extractFromEmbed fetch, f.type = "video" := by
  intro f hf
  unfold extractFromEmbed at hf
  cases fetch with
  | ok srcs =>
    obtain ⟨s, _, rfl⟩ := List.mem_map.1 hf
    rfl
  | httpErr s => simp at hf
  | netErr m => simp at hf

theorem extractFromApi_type {url : String} {fetch : FetchResult ApiResponse} :
    ∀ f ∈ extractFromApi url fetch, f.type = "video" := by
  intro f hf
  unfold extractFromApi at hf
  cases hs : (jsSplitStr "/video/" url).get? 1 with
  | none => rw [hs] at hf; simp at hf
  | some tail =>
    rw [hs] at hf
    dsimp only at hf
    split at hf
    · simp at hf
    · cases fetch with
      | httpErr s => simp at hf
      | netErr m => simp at hf
      | ok data =>
        dsimp only at hf
        cases hh : data.awemeList.head? with
        | none => rw [hh] at hf; simp at hf
        | some aweme =>
          rw [hh] at hf
          dsimp only at hf
          rcases List.mem_append.1 hf with hf | hf
          · cases hp : aweme.playAddrUrls.head? with
            | none => rw [hp] at hf; simp at hf
            | some u =>
              rw [hp] at hf
              dsimp only at hf
              split at hf
              · rw [List.mem_singleton] at hf; subst hf; rfl
              · simp at hf
          · cases hp : aweme.downloadAddrUrls.head? with
            | none => rw [hp] at hf; simp at hf
            | some u =>
              rw [hp] at hf
              dsimp only at hf
              split at hf
              · rw [List.mem_singleton] at hf; subst hf; rfl
              · simp at hf

theorem tkFormats1_mem {url : String} {page : TikTokPage}
    {embedFetch : FetchResult (List String)} :
    ∀ f ∈ tkFormats1 url page embedFetch,
      f ∈ extractFormatsTk page ∨ f ∈ extractFromEmbed embedFetch := by
  intro f hf
  unfold tkFormats1 at hf
  dsimp only at hf
  split at hf
  · split at hf
    · exact List.mem_append.1 hf
    · exact Or.inl hf
  · exact Or.inl hf

theorem tkRawFormats_mem {url : String} {page : TikTokPage}
    {embedFetch : FetchResult (List String)} {apiFetch : FetchResult ApiResponse} :
    ∀ f ∈ tkRawFormats url page embedFetch apiFetch,
      f ∈ extractFormatsTk page ∨ f ∈ extractFromEmbed embedFetch ∨
        f ∈ extractFromApi url apiFetch := by
  intro f hf
  unfold tkRawFormats at hf
  dsimp only at hf
  split at hf
  · rcases List.mem_append.1 hf with hf | hf
    · exact (tkFormats1_mem f hf).imp id Or.inl
    · exact Or.inr (Or.inr hf)
  · exact (tkFormats1_mem f hf).imp id Or.inl

theorem tkRawFormats_type {url : String} {page : TikTokPage}
    {embedFetch : FetchResult (List String)} {apiFetch : FetchResult ApiResponse} :
    ∀ f ∈ tkRawFormats url page embedFetch apiFetch, f.type = "video" := by
  intro f hf
  rcases tkRawFormats_mem f hf with hf | hf | hf
  · exact extractFormatsTk_type f hf
  · exact extractFromEmbed_type f hf
  · exact extractFromApi_type f hf

theorem dedupByUrl_go_mem_spec :
    ∀ (l : List VideoFormat) (seen : List String) (f : VideoFormat),
      f ∈ dedupByUrl.go seen l →
      f.url ∉ seen ∧ l.find? (fun g => g.url = f.url) = some f := by
  intro l
  induction l with
  | nil => intro seen f hf; simp [dedupByUrl.go] at hf
  | cons x rest ih =>
    intro seen f hf
    unfold dedupByUrl.go at hf
    split at hf
    · rename_i hseen
      obtain ⟨hnotin, hfind⟩ := ih seen f hf
      have hne : ¬ (x.url = f.url) := fun e => hnotin (e ▸ hseen)
      exact ⟨hnotin, by simp [List.find?, hne, hfind]⟩
    · rename_i hseen
      rcases List.mem_cons.1 hf with rfl | hf
      · exact ⟨hseen, by simp [List.find?]⟩
      · obtain ⟨hnotin, hfind⟩ := ih (x.url :: seen) f hf
        have hne : ¬ (x.url = f.url) := by
          intro e
          exact hnotin (by simp [e])
        refine ⟨fun hmem => hnotin (List.mem_cons_of_mem _ hmem), ?_⟩
        simp [List.find?, hne, hfind]

theorem dedupByUrl_go_nodup :
    ∀ (l : List VideoFormat) (seen : List String),
      ((dedupByUrl.go seen l).map (fun f => f.url)).Nodup := by
  intro l
  induction l with
  | nil => intro seen; simp [dedupByUrl.go]
  | cons x rest ih =>
    intro seen
    unfold dedupByUrl.go
    split
    · exact ih seen
    · simp only [List.map_cons, List.nodup_cons]
      refine ⟨?_, ih (x.url :: seen)⟩
      intro hmem
      obtain ⟨f, hf, hfu⟩ := List.mem_map.1 hmem
      have := (dedupByUrl_go_mem_spec rest (x.url :: seen) f hf).1
      exact this (by simp [hfu])

theorem dedupByUrl_mem_spec {l : List VideoFormat} {f : VideoFormat}
    (hf : f ∈ dedupByUrl l) : l.find? (fun g => g.url = f.url) = some f :=
  (dedupByUrl_go_mem_spec l [] f hf).2

theorem dedupByUrl_nodup (l : List VideoFormat) :
    ((dedupByUrl l).map (fun f => f.url)).Nodup :=
  dedupByUrl_go_nodup l []

theorem fetchTikTokInfo_ok {url : String} {page : TikTokPage}
    {embedFetch : FetchResult (List String)} {apiFetch : FetchResult ApiResponse}
    {info : TikTokVideoInfo}
    (h : fetchTikTokInfo url (.ok page) embedFetch apiFetch = .ok info) :
    info.formats =
      (dedupByUrl
        ((tkRawFormats url page embedFetch apiFetch).filter fun f => f.url ≠ "")).insertionSort
        tkInfoRel := by
  unfold fetchTikTokInfo at h
  dsimp only at h
  injection h with h
  subst h
  rfl

theorem remapFormat_eq (f : VideoFormat) : remapFormat f = f := rfl

theorem map_remapFormat (l : List VideoFormat) : l.map remapFormat = l := by
  have : remapFormat = id := funext remapFormat_eq
  rw [this, List.map_id]

theorem formatsHandler_ok_inv {urlQ typeQ : Option String} {platform : String}
    {tk bt all : Except String (List VideoFormat)} {p : String}
    {out : List VideoFormat}
    (h : formatsHandler urlQ typeQ platform tk bt all = .ok (p, out)) :
    (∀ f ∈ out, f.url ≠ "") ∧
    ∃ formats, (tk = .ok formats ∨ bt = .ok formats ∨ all = .ok formats) ∧
      out = formats.filter fun f => f.url ≠ "" := by
  unfold formatsHandler at h
  cases urlQ with
  | none => exact absurd h (by simp)
  | some u =>
    dsimp only at h
    split at h
    · exact absurd h (by simp)
    · cases typeQ with
      | none =>
        dsimp only at h
        cases hfetched :
            (if platform = "tiktok" then tk
             else if platform = "youtube" then all
             else Except.error "Unsupported platform") with
        | error e => rw [hfetched] at h; exact absurd h (by simp)
        | ok formats =>
          rw [hfetched] at h
          dsimp only at h
          rw [map_remapFormat] at h
          split at h
          · exact absurd h (by simp)
          · injection h with h
            rw [Prod.mk.injEq] at h
            obtain ⟨hp, hout⟩ := h
            subst hout
            refine ⟨?_, formats, ?_, rfl⟩
            · intro f hf
              have := List.of_mem_filter hf
              simpa using this
            · split at hfetched
              · exact Or.inl hfetched
              · split at hfetched
                · exact Or.inr (Or.inr hfetched)
                · exact absurd hfetched (by simp)
      | some t =>
        dsimp only at h
        cases hfetched :
            (if platform = "tiktok" then tk
             else if platform = "youtube" then (if t ≠ "" then bt else all)
             else Except.error "Unsupported platform") with
        | error e => rw [hfetched] at h; exact absurd h (by simp)
        | ok formats =>
          rw [hfetched] at h
          dsimp only at h
          rw [map_remapFormat] at h
          split at h
          · exact absurd h (by simp)
          · injection h with h
            rw [Prod.mk.injEq] at h
            obtain ⟨hp, hout⟩ := h
            subst hout
            refine ⟨?_, formats, ?_, rfl⟩
            · intro f hf
              have := List.of_mem_filter hf
              simpa using this
            · split at hfetched
              · exact Or.inl hfetched
              · split at hfetched
                · split at hfetched
                  · exact Or.inr (Or.inl hfetched)
                  · exact Or.inr (Or.inr hfetched)
                · exact absurd hfetched (by simp)

theorem formatsHandler_error_of_empty {u : String} {typeQ : Option String}
    {l : List VideoFormat} {bt all : Except String (List VideoFormat)}
    (hu : u ≠ "") (hl : l.filter (fun f => f.url ≠ "") = []) :
    formatsHandler (some u) typeQ "tiktok" (.ok l) bt all =
      .error ("Failed to list formats: " ++ "No valid formats found with URLs") := by
  unfold formatsHandler
  dsimp only
  rw [if_neg hu, if_pos rfl]
  dsimp only
  rw [hl]
  rfl

theorem processYTFormat_some {raw : RawYTFormat} {f : VideoFormat}
    (h : processYTFormat raw = some f) :
    f.url ≠ "" ∧ (f.type = "audio" ∨ f.type = "video") := by
  unfold processYTFormat at h
  dsimp only at h
  split at h
  · exact absurd h (by simp)
  · rename_i hne
    injection h with h
    subst h
    exact ⟨hne, getMimeType_type raw.mimeType⟩

/-- C8: every record returned by a successful `extractVideo` call and by the
`/formats` handler has a non-empty url; media types are exactly `audio` or
`video` (established at the producers and preserved by the pipeline); the
final url filter makes an extraction or listing with zero url-carrying
records fail rather than return an empty set. -/
theorem c8_record_invariants :
    (∀ (platform : String) (fetched : Except String VideoMetadata)
       (r : VideoExtractRequest) (m : VideoMetadata),
       extractVideo platform fetched r = .ok m →
       ∀ f ∈ m.formats, f.url ≠ "") ∧
    (∀ (platform : String) (fetched : Except String VideoMetadata)
       (r : VideoExtractRequest) (m meta : VideoMetadata),
       fetched = .ok meta →
       (∀ g ∈ meta.formats, g.type = "audio" ∨ g.type = "video") →
       extractVideo platform fetched r = .ok m →
       ∀ f ∈ m.formats, f.type = "audio" ∨ f.type = "video") ∧
    (∀ pr : PlayerResponse, ∀ f ∈ extractFormatsFromPlayerResponse pr,
       f.url ≠ "" ∧ (f.type = "audio" ∨ f.type = "video")) ∧
    (∀ (url : String) (page : TikTokPage) (embedFetch : FetchResult (List String))
       (apiFetch : FetchResult ApiResponse) (info : TikTokVideoInfo),
       fetchTikTokInfo url (.ok page) embedFetch apiFetch = .ok info →
       ∀ f ∈ info.formats, f.url ≠ "" ∧ f.type = "video") ∧
    (∀ (urlQ typeQ : Option String) (platform : String)
       (tk bt all : Except String (List VideoFormat)) (p : String)
       (out : List VideoFormat),
       formatsHandler urlQ typeQ platform tk bt all = .ok (p, out) →
       (∀ f ∈ out, f.url ≠ "") ∧
       ((∀ l, (tk = .ok l ∨ bt = .ok l ∨ all = .ok l) →
          ∀ g ∈ l, g.type = "audio" ∨ g.type = "video") →
        ∀ f ∈ out, f.type = "audio" ∨ f.type = "video")) ∧
    (∀ (platform : String) (fetched : Except String VideoMetadata)
       (r : VideoExtractRequest) (meta : VideoMetadata),
       fetched = .ok meta → meta.formats.filter (fun f => f.url ≠ "") = [] →
       ∃ e, extractVideo platform fetched r = .error e) ∧
    (∀ (u : String) (typeQ : Option String) (l : List VideoFormat)
       (bt all : Except String (List VideoFormat)),
       u ≠ "" → l.filter (fun f => f.url ≠ "") = [] →
       formatsHandler (some u) typeQ "tiktok" (.ok l) bt all =
         .error ("Failed to list formats: " ++ "No valid formats found with URLs")) := by
  refine ⟨?_, ?_, ?_, ?_, ?_, ?_, ?_⟩
  · intro platform fetched r m h f hf
    obtain ⟨-, meta', -, hap⟩ := extractVideo_ok_decomp h
    exact ((afterPlatform_ok hap).1 f hf).2
  · intro platform fetched r m meta hfe htypes h f hf
    obtain ⟨-, meta', hps, hap⟩ := extractVideo_ok_decomp h
    obtain ⟨meta0, hfe0, hsub⟩ := platformStage_ok hps
    rw [hfe] at hfe0
    injection hfe0 with hmeq
    have hf' : f ∈ meta'.formats := ((afterPlatform_ok hap).1 f hf).1
    exact htypes f (hmeq ▸ hsub f hf')
  · intro pr f hf
    unfold extractFormatsFromPlayerResponse at hf
    have hf2 := (List.perm_insertionSort ytResponseRel _).mem_iff.1 hf
    obtain ⟨raw, -, hp⟩ := List.mem_filterMap.1 hf2
    exact processYTFormat_some hp
  · intro url page embedFetch apiFetch info h f hf
    rw [fetchTikTokInfo_ok h] at hf
    have hf2 := (List.perm_insertionSort tkInfoRel _).mem_iff.1 hf
    have hfind := dedupByUrl_mem_spec hf2
    have hfmem := List.mem_of_find?_eq_some hfind
    refine ⟨?_, ?_⟩
    · have := List.of_mem_filter hfmem
      simpa using this
    · exact tkRawFormats_type f (List.mem_of_mem_filter hfmem)
  · intro urlQ typeQ platform tk bt all p out h
    obtain ⟨hurls, formats, hor, hout⟩ := formatsHandler_ok_inv h
    refine ⟨hurls, ?_⟩
    intro htypes f hf
    rw [hout] at hf
    exact htypes formats hor f (List.mem_of_mem_filter hf)
  · intro platform fetched r meta hfe hfilter
    refine extractVideo_error_of_empty_urls platform r hfe ?_
    intro f hf
    rw [List.filter_eq_nil_iff] at hfilter
    have := hfilter f hf
    simpa using this
  · intro u typeQ l bt all hu hl
    exact formatsHandler_error_of_empty hu hl

/-- A plain YouTube request for the C8 witness. -/
def c8Req : VideoExtractRequest :=
  ⟨.val "https://youtu.be/zzzzzzzzzzz", .absent, .absent, .absent, .absent, .absent⟩

/-- A one-format metadata value with a usable url. -/
def c8Meta : VideoMetadata :=
  { title := "t", description := none, duration := 0, thumbnail := none,
    formats := [⟨"720p", "mp4", "video/mp4", "video", 0, "http://u"⟩],
    downloadUrl := none }

/-- A metadata value whose only record lacks a url. -/
def c8MetaEmptyUrl : VideoMetadata :=
  { title := "t", description := none, duration := 0, thumbnail := none,
    formats := [⟨"720p", "mp4", "video/mp4", "video", 0, ""⟩],
    downloadUrl := none }

/-- A one-descriptor player response for the C8 witness. -/
def c8PR : PlayerResponse :=
  ⟨some ⟨some [⟨some "http://y", none, some "video/mp4", some "720p", none, none⟩], none⟩⟩

/-- A main page carrying one direct video src. -/
def c8Page : TikTokPage :=
  { videoSrcs := ["http://v"], ogVideo := none, ogVideoUrl := none,
    videoData := ⟨none, none, none, none⟩, title := "t", description := "",
    duration := 0, thumbnail := "" }

/-- Witness for `c8_record_invariants` at concrete inputs. -/
theorem c8_record_invariants_witness :
    (extractVideo "youtube" (.ok c8Meta) c8Req = .ok c8Meta ∧
     (∀ f ∈ c8Meta.formats, f.url ≠ "") ∧
     (∀ f ∈ c8Meta.formats, f.type = "audio" ∨ f.type = "video")) ∧
    (∀ f ∈ extractFormatsFromPlayerResponse c8PR,
       f.url ≠ "" ∧ (f.type = "audio" ∨ f.type = "video")) ∧
    (∀ f ∈ ({ title := "t", description := "", duration := 0, thumbnail := "",
              formats := [tkFormat "original" "http://v"] : TikTokVideoInfo }).formats,
       f.url ≠ "" ∧ f.type = "video") ∧
    ((∀ f ∈ [tkFormat "original" "http://v"], f.url ≠ "") ∧
     ((∀ l, ((.ok [tkFormat "original" "http://v"] : Except String (List VideoFormat)) = .ok l ∨
             (.error "x" : Except String (List VideoFormat)) = .ok l ∨
             (.error "x" : Except String (List VideoFormat)) = .ok l) →
        ∀ g ∈ l, g.type = "audio" ∨ g.type = "video") →
      ∀ f ∈ [tkFormat "original" "http://v"], f.type = "audio" ∨ f.type = "video")) ∧
    (∃ e, extractVideo "youtube" (.ok c8MetaEmptyUrl) c8Req = .error e) ∧
    formatsHandler (some "https://t") none "tiktok"
        (.ok [⟨"q", "mp4", "video/mp4", "video", 0, ""⟩]) (.error "x") (.error "x") =
      .error ("Failed to list formats: " ++ "No valid formats found with URLs") := by
  refine ⟨⟨by decide, ?_, ?_⟩, ?_, ?_, ?_, ?_, ?_⟩
  · exact c8_record_invariants.1 "youtube" (.ok c8Meta) c8Req c8Meta (by decide)
  · exact c8_record_invariants.2.1 "youtube" (.ok c8Meta) c8Req c8Meta c8Meta rfl
      (by decide) (by decide)
  · exact c8_record_invariants.2.2.1 c8PR
  · exact c8_record_invariants.2.2.2.1 "https://www.tiktok.com/@u/video/1" c8Page
      (.netErr "x") (.netErr "x")
      { title := "t", description := "", duration := 0, thumbnail := "",
        formats := [tkFormat "original" "http://v"] } (by decide)
  · exact c8_record_invariants.2.2.2.2.1 (some "https://t") none "tiktok"
      (.ok [tkFormat "original" "http://v"]) (.error "x") (.error "x") "tiktok"
      [tkFormat "original" "http://v"] (by decide)
  · exact c8_record_invariants.2.2.2.2.2.1 "youtube" (.ok c8MetaEmptyUrl) c8Req
      c8MetaEmptyUrl rfl (by decide)
  · exact c8_record_invariants.2.2.2.2.2.2 "https://t" none
      [⟨"q", "mp4", "video/mp4", "video", 0, ""⟩] (.error "x") (.error "x")
      (by decide) (by decide)

/-- A player response with two descriptors that resolve to the same url. -/
def c5PR : PlayerResponse :=
  ⟨some ⟨some [⟨some "http://u", none, some "video/mp4", some "720p", none, none⟩,
               ⟨some "http://u", none, some "video/mp4", some "360p", none, none⟩],
    some []⟩⟩

/-- C5 (counterexample): the YouTube normalizer
(`extractFormatsFromPlayerResponse`) performs NO deduplication — two
descriptors with the same resulting url both survive, so the output does
not contain exactly one record per distinct url. -/
theorem c5_dedup_counterexample :
    (extractFormatsFromPlayerResponse c5PR).map (fun f => f.url) =
      ["http://u", "http://u"] ∧
    ¬ ((extractFormatsFromPlayerResponse c5PR).map fun f => f.url).Nodup :=
  ⟨by decide, by decide⟩

theorem length_filterMap_processYT (l : List RawYTFormat) :
    (l.filterMap processYTFormat).length =
      (l.filter fun raw => finalUrlOf raw ≠ "").length := by
  induction l with
  | nil => rfl
  | cons x rest ih =>
    by_cases hfx : finalUrlOf x = ""
    · have hnone : processYTFormat x = none := by
        unfold processYTFormat
        simp [hfx]
      simp [List.filterMap_cons, List.filter_cons, hnone, hfx, ih]
    · have hsome : ∃ f, processYTFormat x = some f := by
        unfold processYTFormat
        exact ⟨_, by rw [if_neg hfx]⟩
      obtain ⟨f, hf⟩ := hsome
      simp [List.filterMap_cons, List.filter_cons, hf, hfx, ih]

/-- C5 (amended): the TikTok normalizer deduplicates by url, keeping the
first occurrence with all its fields (`find?` over the pre-dedup candidate
list returns exactly the surviving record); the YouTube normalizer performs
no deduplication: it emits one record per url-yielding descriptor, so
duplicate urls survive. -/
theorem c5_dedup_amended :
    (∀ (url : String) (page : TikTokPage) (embedFetch : FetchResult (List String))
       (apiFetch : FetchResult ApiResponse) (info : TikTokVideoInfo),
       fetchTikTokInfo url (.ok page) embedFetch apiFetch = .ok info →
       ((info.formats.map fun f => f.url).Nodup ∧
        ∀ f ∈ info.formats,
          ((tkRawFormats url page embedFetch apiFetch).filter fun g => g.url ≠ "").find?
              (fun g => g.url = f.url) = some f)) ∧
    (∀ pr : PlayerResponse,
       (extractFormatsFromPlayerResponse pr).length =
         ((ytRawDescriptors pr).filter fun raw => finalUrlOf raw ≠ "").length) := by
  constructor
  · intro url page embedFetch apiFetch info h
    rw [fetchTikTokInfo_ok h]
    constructor
    · exact ((List.perm_insertionSort tkInfoRel _).map fun f => f.url).nodup_iff.2
        (dedupByUrl_nodup _)
    · intro f hf
      exact dedupByUrl_mem_spec ((List.perm_insertionSort tkInfoRel _).mem_iff.1 hf)
  · intro pr
    unfold extractFormatsFromPlayerResponse
    rw [(List.perm_insertionSort ytResponseRel _).length_eq]
    exact length_filterMap_processYT (ytRawDescriptors pr)

/-- A TikTok video url for the C5 witness. -/
def c5Url : String := "https://www.tiktok.com/@u/video/42"

/-- A main page whose two `video[src]` elements carry the same url. -/
def c5Page : TikTokPage :=
  { videoSrcs := ["http://u", "http://u"], ogVideo := none, ogVideoUrl := none,
    videoData := ⟨none, none, none, none⟩, title := "t", description := "",
    duration := 0, thumbnail := "" }

/-- Witness for `c5_dedup_amended`: the duplicate main-page url survives
exactly once, as its first occurrence. -/
theorem c5_dedup_amended_witness :
    (([tkFormat "original" "http://u"].map fun f => f.url).Nodup ∧
     ∀ f ∈ [tkFormat "original" "http://u"],
       ((tkRawFormats c5Url c5Page (.netErr "x") (.netErr "x")).filter
           fun g => g.url ≠ "").find? (fun g => g.url = f.url) = some f) :=
  c5_dedup_amended.1 c5Url c5Page (.netErr "x") (.netErr "x")
    ⟨"t", "", 0, "", [tkFormat "original" "http://u"]⟩ (by decide)

/-- The TikTok url used by the C3 counterexample. -/
def c3Url : String := "https://www.tiktok.com/@u/video/1"

/-- An API response with both a no-watermark and a watermarked url. -/
def c3Api : ApiResponse := ⟨[⟨["http://x"], ["http://y"]⟩]⟩

/-- C3 (counterexample): the main-page fetch belongs to the FIRST strategy
of the TikTok fallback chain, yet its non-2xx failure is fatal to the whole
request even though the embed and API strategies remain available and would
yield formats — refuting "a failure on any earlier strategy is swallowed
and the chain continues". -/
theorem c3_fatal_counterexample :
    fetchTikTokInfo c3Url (.httpErr 500) (.ok ["http://cdn/a"]) (.ok c3Api) =
      .error "Failed to fetch TikTok info: HTTP error! status: 500" ∧
    extractFromEmbed (.ok ["http://cdn/a"]) ≠ [] ∧
    extractFromApi c3Url (.ok c3Api) ≠ [] ∧
    extractTikTokVideo c3Url (.httpErr 500) (.ok ["http://cdn/a"]) (.ok c3Api) =
      .error
        "Failed to extract TikTok video: Failed to fetch TikTok info: HTTP error! status: 500" :=
  ⟨by decide, by decide, by decide, by decide⟩

theorem extractFromApi_fetchFail_eq (url : String) (st : Nat) (msg : String) :
    extractFromApi url (.httpErr st) = extractFromApi url (.ok ⟨[]⟩) ∧
    extractFromApi url (.netErr msg) = extractFromApi url (.ok ⟨[]⟩) := by
  constructor <;>
  · unfold extractFromApi
    cases hs : (jsSplitStr "/video/" url).get? 1 with
    | none => rfl
    | some tail =>
      dsimp only
      split
      · rfl
      · rfl

/-- C3 (amended): a non-2xx status or transport failure on the
embed-strategy fetch or the API-strategy fetch is swallowed (that strategy
contributes no formats and the chain continues), but a failure of the
initial main-page fetch — the first strategy — is fatal to the whole
request even though the embed and API fallbacks remain untried. -/
theorem c3_fallback_swallowing :
    (∀ (url : String) (page : TikTokPage) (apiFetch : FetchResult ApiResponse)
       (st : Nat),
       fetchTikTokInfo url (.ok page) (.httpErr st) apiFetch =
         fetchTikTokInfo url (.ok page) (.ok []) apiFetch) ∧
    (∀ (url : String) (page : TikTokPage) (apiFetch : FetchResult ApiResponse)
       (msg : String),
       fetchTikTokInfo url (.ok page) (.netErr msg) apiFetch =
         fetchTikTokInfo url (.ok page) (.ok []) apiFetch) ∧
    (∀ (url : String) (page : TikTokPage) (embedFetch : FetchResult (List String))
       (st : Nat),
       fetchTikTokInfo url (.ok page) embedFetch (.httpErr st) =
         fetchTikTokInfo url (.ok page) embedFetch (.ok ⟨[]⟩)) ∧
    (∀ (url : String) (page : TikTokPage) (embedFetch : FetchResult (List String))
       (msg : String),
       fetchTikTokInfo url (.ok page) embedFetch (.netErr msg) =
         fetchTikTokInfo url (.ok page) embedFetch (.ok ⟨[]⟩)) ∧
    (∀ (url : String) (embedFetch : FetchResult (List String))
       (apiFetch : FetchResult ApiResponse) (st : Nat),
       fetchTikTokInfo url (.httpErr st) embedFetch apiFetch =
         .error ("Failed to fetch TikTok info: HTTP error! status: " ++ toString st)) ∧
    (∀ (url : String) (embedFetch : FetchResult (List String))
       (apiFetch : FetchResult ApiResponse) (msg : String),
       fetchTikTokInfo url (.netErr msg) embedFetch apiFetch =
         .error ("Failed to fetch TikTok info: " ++ msg)) := by
  refine ⟨?_, ?_, ?_, ?_, ?_, ?_⟩
  · intro url page apiFetch st
    rfl
  · intro url page apiFetch msg
    rfl
  · intro url page embedFetch st
    unfold fetchTikTokInfo tkRawFormats
    rw [(extractFromApi_fetchFail_eq url st "").1]
  · intro url page embedFetch msg
    unfold fetchTikTokInfo tkRawFormats
    rw [(extractFromApi_fetchFail_eq url 0 msg).2]
  · intro url embedFetch apiFetch st
    rfl
  · intro url embedFetch apiFetch msg
    rfl

theorem applyFormatFilter_ok_eq {fmt : JSOpt String} {fs fs' : List VideoFormat}
    (h : applyFormatFilter fmt fs = .ok fs') :
    fs' = fs ∨ fs' = fs.filter fun f => jsToLower f.format = jsToLower (jsValS fmt) := by
  unfold applyFormatFilter at h
  split at h
  · dsimp only at h
    split at h
    · exact absurd h (by simp)
    · injection h with h
      exact Or.inr h.symm
  · injection h with h
    exact Or.inl h.symm

theorem applyTypeFilter_ok_eq {t : JSOpt String} {fs fs' : List VideoFormat}
    (h : applyTypeFilter t fs = .ok fs') :
    fs' = fs ∨ fs' = fs.filter fun f => f.type = jsValS t := by
  unfold applyTypeFilter at h
  split at h
  · dsimp only at h
    split at h
    · exact absurd h (by simp)
    · injection h with h
      exact Or.inr h.symm
  · injection h with h
    exact Or.inl h.symm

theorem applyUrlFilter_ok_eq {fs fs' : List VideoFormat}
    (h : applyUrlFilter fs = .ok fs') : fs' = fs.filter fun f => f.url ≠ "" := by
  unfold applyUrlFilter at h
  dsimp only at h
  split at h
  · exact absurd h (by simp)
  · injection h with h
    exact h.symm

theorem applyQualityFilter_highest (fs : List VideoFormat) :
    applyQualityFilter (JSOpt.val "highest") fs = .ok fs := by
  unfold applyQualityFilter
  rw [if_neg]
  intro hc
  exact hc.2 rfl

theorem afterPlatform_ok_formats {p : VideoExtractRequest} {meta m : VideoMetadata}
    (h : afterPlatform p meta = .ok m) :
    m.formats = [] ∨
    ∃ fs3, applyTypeFilter p.type meta.formats = .ok fs3 ∧
      m.formats = fs3.filter fun f => f.url ≠ "" := by
  unfold afterPlatform at h
  cases ht : applyTypeFilter p.type meta.formats with
  | error e => rw [ht] at h; exact absurd h (by simp)
  | ok fs =>
    rw [ht] at h
    dsimp only at h
    cases hu : applyUrlFilter fs with
    | error e => rw [hu] at h; exact absurd h (by simp)
    | ok fs2 =>
      rw [hu] at h
      dsimp only at h
      injection h with h
      subst h
      by_cases hinfo : jsTruthyB p.info = true
      · rw [if_pos hinfo]
        exact Or.inl rfl
      · rw [if_neg hinfo]
        refine Or.inr ⟨fs, rfl, ?_⟩
        rw [← applyUrlFilter_ok_eq hu]
        split <;> rfl

theorem platformStage_youtube_ok {fetched : Except String VideoMetadata}
    {p : VideoExtractRequest} {meta' : VideoMetadata}
    (h : platformStage "youtube" fetched p = .ok meta') :
    ∃ meta fs fs2, fetched = .ok meta ∧
      applyFormatFilter p.format meta.formats = .ok fs ∧
      applyQualityFilter p.quality fs = .ok fs2 ∧
      meta'.formats = applySortYT p.quality fs2 := by
  unfold platformStage at h
  rw [if_pos rfl] at h
  cases fetched with
  | error e => exact absurd h (by simp)
  | ok meta =>
    dsimp only at h
    cases hf : applyFormatFilter p.format meta.formats with
    | error e => rw [hf] at h; exact absurd h (by simp)
    | ok fs =>
      rw [hf] at h
      dsimp only at h
      cases hq : applyQualityFilter p.quality fs with
      | error e => rw [hq] at h; exact absurd h (by simp)
      | ok fs2 =>
        rw [hq] at h
        dsimp only at h
        injection h with h
        subst h
        exact ⟨meta, fs, fs2, rfl, hf, hq, rfl⟩

theorem platformStage_tiktok_ok {fetched : Except String VideoMetadata}
    {p : VideoExtractRequest} {meta' : VideoMetadata}
    (h : platformStage "tiktok" fetched p = .ok meta') :
    ∃ meta fs fs2, fetched = .ok meta ∧
      applyFormatFilter p.format meta.formats = .ok fs ∧
      applyQualityFilter p.quality fs = .ok fs2 ∧
      meta'.formats = applySortTk p.quality fs2 := by
  unfold platformStage at h
  rw [if_neg (by decide), if_pos rfl] at h
  cases fetched with
  | error e => exact absurd h (by simp)
  | ok meta =>
    dsimp only at h
    cases hf : applyFormatFilter p.format meta.formats with
    | error e => rw [hf] at h; exact absurd h (by simp)
    | ok fs =>
      rw [hf] at h
      dsimp only at h
      cases hq : applyQualityFilter p.quality fs with
      | error e => rw [hq] at h; exact absurd h (by simp)
      | ok fs2 =>
        rw [hq] at h
        dsimp only at h
        injection h with h
        subst h
        exact ⟨meta, fs, fs2, rfl, hf, hq, rfl⟩

theorem ytHighestRel_total : ∀ a b, ytHighestRel a b ∨ ytHighestRel b a :=
  fun _ _ => Nat.le_total _ _

theorem ytHighestRel_trans :
    ∀ a b c, ytHighestRel a b → ytHighestRel b c → ytHighestRel a c :=
  fun _ _ _ h1 h2 => Nat.le_trans h2 h1

theorem tkHighestRel_total : ∀ a b, tkHighestRel a b ∨ tkHighestRel b a := by
  intro a b
  unfold tkHighestRel
  cases ha : hasNoWatermark a <;> cases hb : hasNoWatermark b
  · rcases Nat.le_total b.size a.size with h | h
    · exact Or.inl (Or.inr ⟨rfl, h⟩)
    · exact Or.inr (Or.inr ⟨rfl, h⟩)
  · exact Or.inr (Or.inl ⟨rfl, rfl⟩)
  · exact Or.inl (Or.inl ⟨rfl, rfl⟩)
  · rcases Nat.le_total b.size a.size with h | h
    · exact Or.inl (Or.inr ⟨rfl, h⟩)
    · exact Or.inr (Or.inr ⟨rfl, h⟩)

theorem tkHighestRel_trans :
    ∀ a b c, tkHighestRel a b → tkHighestRel b c → tkHighestRel a c := by
  intro a b c hab hbc
  unfold tkHighestRel at hab hbc ⊢
  rcases hab with ⟨ha, hb⟩ | ⟨hab, hs1⟩
  · rcases hbc with ⟨hb2, hc⟩ | ⟨hbc2, hs2⟩
    · rw [hb] at hb2
      exact absurd hb2 (by simp)
    · exact Or.inl ⟨ha, hbc2.symm.trans hb⟩
  · rcases hbc with ⟨hb2, hc⟩ | ⟨hbc2, hs2⟩
    · exact Or.inl ⟨hab.trans hb2, hc⟩
    · exact Or.inr ⟨hab.trans hbc2, Nat.le_trans hs2 hs1⟩

/-- C7: for a TikTok extraction whose (defaulted) quality is `highest`, the
returned formats are pairwise ordered by the watermark-first comparator:
a record whose label carries the `no watermark` marker never follows one
whose label does not, and records agreeing on the marker are in descending
size order (so unknown size `0` comes last in its class). -/
theorem c7_tiktok_watermark_priority :
    ∀ (fetched : Except String VideoMetadata) (r : VideoExtractRequest)
      (m : VideoMetadata),
      (applyDefaults r).quality = JSOpt.val "highest" →
      extractVideo "tiktok" fetched r = .ok m →
      m.formats.Pairwise tkHighestRel := by
  intro fetched r m hq h
  obtain ⟨hurl, meta', hps, hap⟩ := extractVideo_ok_decomp h
  obtain ⟨meta, fs, fs2, hfe, hff, hqf, hforms⟩ := platformStage_tiktok_ok hps
  have hsorted : meta'.formats.Pairwise tkHighestRel := by
    rw [hforms]
    unfold applySortTk
    rw [hq, if_pos rfl]
    exact pairwise_insertionSort tkHighestRel tkHighestRel_total tkHighestRel_trans fs2
  rcases afterPlatform_ok_formats hap with hnil | ⟨fs3, hts, hmf⟩
  · rw [hnil]
    exact List.Pairwise.nil
  · rw [hmf]
    have h3 : fs3.Pairwise tkHighestRel := by
      rcases applyTypeFilter_ok_eq hts with rfl | rfl
      · exact hsorted
      · exact List.Pairwise.sublist (List.filter_sublist _) hsorted
    exact List.Pairwise.sublist (List.filter_sublist _) h3

/-- The scenario-B request: a TikTok url with `format: "mp4"` only. -/
def c7Req : VideoExtractRequest :=
  ⟨.val "https://www.tiktok.com/@u/video/7", .val "mp4", .absent, .absent, .absent, .absent⟩

/-- The no-watermark record of scenario B (size 500000). -/
def c7NoWm : VideoFormat :=
  ⟨"original (no watermark)", "mp4", "video/mp4", "video", 500000, "http://a"⟩

/-- The watermarked record of scenario B (size 900000). -/
def c7Wm : VideoFormat :=
  ⟨"original (watermark)", "mp4", "video/mp4", "video", 900000, "http://b"⟩

/-- Extraction result listing the bigger watermarked record first. -/
def c7Meta : VideoMetadata :=
  { title := "t", description := none, duration := 0, thumbnail := none,
    formats := [c7Wm, c7NoWm], downloadUrl := none }

/-- The response: the no-watermark record first despite its smaller size. -/
def c7Result : VideoMetadata :=
  { title := "t", description := none, duration := 0, thumbnail := none,
    formats := [c7NoWm, c7Wm], downloadUrl := none }

/-- Witness for `c7_tiktok_watermark_priority`: scenario B — with records
`original (no watermark)` of size 500000 and `original (watermark)` of size
900000, the response's first record is the no-watermark one. -/
theorem c7_tiktok_watermark_priority_witness :
    ((applyDefaults c7Req).quality = JSOpt.val "highest" ∧
     extractVideo "tiktok" (.ok c7Meta) c7Req = .ok c7Result ∧
     c7Result.formats.map (fun f => f.quality) =
       ["original (no watermark)", "original (watermark)"]) ∧
    c7Result.formats.Pairwise tkHighestRel :=
  ⟨⟨rfl, by decide, by decide⟩,
   c7_tiktok_watermark_priority (.ok c7Meta) c7Req c7Result rfl (by decide)⟩

/-- The quality key as the SPEC words it for the `highest` ranking:
"the leading integer of the label, with non-numeric labels treated as 0"
(for comparison against the source's digits-before-`p` regex key). -/
def specLeadingInt (s : String) : Nat :=
  digitsVal (s.toList.takeWhile Char.isDigit)

/-- A YouTube request with `quality: "highest"` only. -/
def c6Req : VideoExtractRequest :=
  ⟨.val "https://youtu.be/abcdefghijk", .absent, .val "highest", .absent, .absent, .absent⟩

/-- A record whose label has leading integer 720 but no `<digits>p` match. -/
def c6F720x : VideoFormat := ⟨"720x", "mp4", "video/mp4", "video", 0, "http://a"⟩

/-- A record whose label is a plain `360p`. -/
def c6F360p : VideoFormat := ⟨"360p", "mp4", "video/mp4", "video", 0, "http://b"⟩

/-- Extraction result listing the `720x` record first. -/
def c6Meta : VideoMetadata :=
  { title := "t", description := none, duration := 0, thumbnail := none,
    formats := [c6F720x, c6F360p], downloadUrl := none }

/-- What the code actually returns: `360p` first. -/
def c6Result : VideoMetadata :=
  { title := "t", description := none, duration := 0, thumbnail := none,
    formats := [c6F360p, c6F720x], downloadUrl := none }

/-- C6 (counterexample): the sort key is the first digits-immediately-
followed-by-`p` match, not the leading integer: a `720x` label ranks 0, so
`360p` is returned before it, the result is not descending in the spec's
leading-integer key and the top record does not carry the highest numeric
prefix. -/
theorem c6_leadingInt_counterexample :
    extractVideo "youtube" (.ok c6Meta) c6Req = .ok c6Result ∧
    c6Result.formats.map (fun f => f.quality) = ["360p", "720x"] ∧
    specLeadingInt "720x" = 720 ∧
    specLeadingInt "360p" = 360 ∧
    ¬ (c6Result.formats.map fun f => specLeadingInt f.quality).Sorted (· ≥ ·) :=
  ⟨by decide, by decide, by decide, by decide, by decide⟩

theorem filter_key_sortYT (fs : List VideoFormat) (k : Nat) :
    ((fs.insertionSort ytHighestRel).filter
        fun f => ytQualityNum f.quality.toList = k) =
      fs.filter fun f => ytQualityNum f.quality.toList = k := by
  refine filter_insertionSort_of_mutual ytHighestRel _ ?_ fs
  intro a b ha hb
  simp only [decide_eq_true_eq] at ha hb
  unfold ytHighestRel
  rw [ha, hb]

/-- C6 (amended): for a YouTube extraction whose (defaulted) quality is
`highest`, the returned formats are sorted descending by the number of the
first digits-followed-by-`p` occurrence in the quality label (labels with
no such occurrence count 0); the top record maximises that key; and ties
are stable: within one key class the returned records form a subsequence of
the extracted records in their original order. -/
theorem c6_youtube_highest_sorted :
    ∀ (fetched : Except String VideoMetadata) (r : VideoExtractRequest)
      (m : VideoMetadata),
      (applyDefaults r).quality = JSOpt.val "highest" →
      extractVideo "youtube" fetched r = .ok m →
      m.formats.Pairwise ytHighestRel ∧
      (∀ g ∈ m.formats.head?, ∀ f ∈ m.formats,
        ytQualityNum f.quality.toList ≤ ytQualityNum g.quality.toList) ∧
      (∀ meta, fetched = .ok meta → ∀ k : Nat,
        (m.formats.filter fun f => ytQualityNum f.quality.toList = k).Sublist
          (meta.formats.filter fun f => ytQualityNum f.quality.toList = k)) := by
  intro fetched r m hq h
  obtain ⟨hurl, meta', hps, hap⟩ := extractVideo_ok_decomp h
  obtain ⟨meta, fs, fs2, hfe, hff, hqf, hforms⟩ := platformStage_youtube_ok hps
  rw [hq, applyQualityFilter_highest] at hqf
  injection hqf with hfs2
  subst hfs2
  have hsortedEq : meta'.formats = fs.insertionSort ytHighestRel := by
    rw [hforms]
    unfold applySortYT
    rw [hq, if_pos rfl]
  have hsorted : meta'.formats.Pairwise ytHighestRel := by
    rw [hsortedEq]
    exact pairwise_insertionSort ytHighestRel ytHighestRel_total ytHighestRel_trans fs
  have hmp : m.formats.Pairwise ytHighestRel := by
    rcases afterPlatform_ok_formats hap with hnil | ⟨fs3, hts, hmf⟩
    · rw [hnil]; exact List.Pairwise.nil
    · rw [hmf]
      have h3 : fs3.Pairwise ytHighestRel := by
        rcases applyTypeFilter_ok_eq hts with rfl | rfl
        · exact hsorted
        · exact List.Pairwise.sublist (List.filter_sublist _) hsorted
      exact List.Pairwise.sublist (List.filter_sublist _) h3
  refine ⟨hmp, ?_, ?_⟩
  · intro g hg f hf
    cases hm : m.formats with
    | nil => rw [hm] at hf; simp at hf
    | cons hd tl =>
      rw [hm] at hg hf
      simp only [List.head?_cons, Option.mem_def, Option.some.injEq] at hg
      subst hg
      rw [hm] at hmp
      rcases List.mem_cons.1 hf with rfl | hf
      · exact Nat.le_refl _
      · exact (List.pairwise_cons.1 hmp).1 f hf
  · intro meta0 hfe0 k
    rw [hfe] at hfe0
    injection hfe0 with hmeq
    subst hmeq
    rcases afterPlatform_ok_formats hap with hnil | ⟨fs3, hts, hmf⟩
    · rw [hnil]
      simp
    · rw [hmf]
      have s1 : (((fs3.filter fun f => f.url ≠ "").filter
            fun f => ytQualityNum f.quality.toList = k)).Sublist
          (fs3.filter fun f => ytQualityNum f.quality.toList = k) :=
        List.Sublist.filter _ (List.filter_sublist _)
      have s2 : ((fs3.filter fun f => ytQualityNum f.quality.toList = k)).Sublist
          ((fs.insertionSort ytHighestRel).filter
            fun f => ytQualityNum f.quality.toList = k) := by
        rcases applyTypeFilter_ok_eq hts with rfl | rfl
        · rw [hsortedEq]
        · rw [hsortedEq]
          exact List.Sublist.filter _ (List.filter_sublist _)
      have s3 : ((fs.filter fun f => ytQualityNum f.quality.toList = k)).Sublist
          (meta.formats.filter fun f => ytQualityNum f.quality.toList = k) := by
        rcases applyFormatFilter_ok_eq hff with rfl | rfl
        · exact List.Sublist.refl _
        · exact List.Sublist.filter _ (List.filter_sublist _)
      have s2x : ((fs3.filter fun f => ytQualityNum f.quality.toList = k)).Sublist
          (fs.filter fun f => ytQualityNum f.quality.toList = k) :=
        filter_key_sortYT fs k ▸ s2
      exact (s1.trans s2x).trans s3

/-- A two-record extraction result in ascending order for the C6 witness. -/
def c6WMeta : VideoMetadata :=
  { title := "t", description := none, duration := 0, thumbnail := none,
    formats := [⟨"720p", "mp4", "video/mp4", "video", 0, "http://a"⟩,
                ⟨"1080p", "mp4", "video/mp4", "video", 0, "http://b"⟩],
    downloadUrl := none }

/-- The sorted response: `1080p` first. -/
def c6WResult : VideoMetadata :=
  { title := "t", description := none, duration := 0, thumbnail := none,
    formats := [⟨"1080p", "mp4", "video/mp4", "video", 0, "http://b"⟩,
                ⟨"720p", "mp4", "video/mp4", "video", 0, "http://a"⟩],
    downloadUrl := none }

/-- Witness for `c6_youtube_highest_sorted` at a concrete extraction. -/
theorem c6_youtube_highest_sorted_witness :
    ((applyDefaults c6Req).quality = JSOpt.val "highest" ∧
     extractVideo "youtube" (.ok c6WMeta) c6Req = .ok c6WResult) ∧
    (c6WResult.formats.Pairwise ytHighestRel ∧
     (∀ g ∈ c6WResult.formats.head?, ∀ f ∈ c6WResult.formats,
       ytQualityNum f.quality.toList ≤ ytQualityNum g.quality.toList) ∧
     (∀ meta, (Except.ok c6WMeta : Except String VideoMetadata) = .ok meta → ∀ k : Nat,
       (c6WResult.formats.filter fun f => ytQualityNum f.quality.toList = k).Sublist
         (meta.formats.filter fun f => ytQualityNum f.quality.toList = k))) :=
  ⟨⟨rfl, by decide⟩,
   c6_youtube_highest_sorted (.ok c6WMeta) c6Req c6WResult rfl (by decide)⟩
